import Mathlib

/-!
# Verification of the satellite-tracker core (`calculator.py`, `coverage.py`)

Shallow embedding of the scan-based pass/coverage logic over exact rationals
(timestamps in seconds, elevations in degrees), and of the footprint/geodesy
formulas over the reals.  The external SGP4 propagation model is out of scope
per the spec (an external collaborator), so each scan is parameterised by an
abstract per-step propagation result `ℕ → Option ℚ`: `none` models a nonzero
SGP4 error code, `some e` a successful propagation whose elevation (for pass
scans) or geodetic triple (for ground tracks) has been computed.
-/

namespace SatTrack

/-! ## Python rounding (`round(x, ndigits)`), idealised over ℚ

Python's `round` uses round-half-to-even.  `pyRound` is that rule on ℚ;
`roundTo d x` models `round(x, d)`. -/

/-- Round-half-to-even of a rational to an integer (Python's `round(x)`). -/
def pyRound (q : ℚ) : ℤ :=
  if q - (⌊q⌋ : ℚ) < 1/2 then ⌊q⌋
  else if 1/2 < q - (⌊q⌋ : ℚ) then ⌊q⌋ + 1
  else if Even ⌊q⌋ then ⌊q⌋ else ⌊q⌋ + 1

/-- Python's `round(x, d)` for `d ≥ 0` decimal digits, idealised over ℚ. -/
def roundTo (d : ℕ) (q : ℚ) : ℚ :=
  (pyRound (q * 10 ^ d) : ℚ) / 10 ^ d

/-! ## Data model (`calculator.py` / `coverage.py` dataclasses)

Timestamps are rationals counting seconds; `now` (the wall-clock scan start)
is an arbitrary rational parameter.  `datetime` arithmetic in the source is
exact, so `t = now + step * i` and `(t - rise).total_seconds() = t - rise`
translate directly. -/

/-- The `Satellite` record of `fetcher.py` as the core sees it (the TLE lines
only feed the external propagation model, which is abstracted away). -/
structure Satellite where
  name : String
  norad_id : ℤ
  deriving DecidableEq

/-- `PassPrediction` dataclass (`calculator.py`). -/
structure PassPrediction where
  satellite_name : String
  norad_id : ℤ
  rise_time : ℚ
  set_time : ℚ
  max_elevation_time : ℚ
  max_elevation_deg : ℚ
  duration_seconds : ℚ
  deriving DecidableEq

/-- `CoverageWindow` dataclass (`coverage.py`). -/
structure CoverageWindow where
  satellite_name : String
  norad_id : ℤ
  start_time : ℚ
  end_time : ℚ
  max_elevation_deg : ℚ
  duration_seconds : ℚ
  deriving DecidableEq

/-- `GroundTrackPoint` dataclass (`coverage.py`). -/
structure GroundTrackPoint where
  latitude : ℚ
  longitude : ℚ
  altitude_km : ℚ
  timestamp : ℚ
  deriving DecidableEq

/-- `CityCoverageReport` dataclass (`coverage.py`). -/
structure CityCoverageReport where
  city_name : String
  latitude : ℚ
  longitude : ℚ
  analysis_hours : ℤ
  total_coverage_seconds : ℚ
  coverage_percentage : ℚ
  num_passes : ℕ
  avg_gap_minutes : ℚ
  max_gap_minutes : ℚ
  avg_pass_duration_seconds : ℚ
  windows : List CoverageWindow
  deriving DecidableEq

/-- One scan sample: the timestamp and the propagation outcome at that step
(`none` = SGP4 reported a nonzero error code; the elevation in degrees
otherwise). -/
abbrev Sample := ℚ × Option ℚ

/-- The scan grid: step `i` is sampled at `now + step * i`
(`t = now + timedelta(seconds=i * step_seconds)`). -/
def samples (now step : ℚ) (steps : ℕ) (propEl : ℕ → Option ℚ) : List Sample :=
  (List.range steps).map (fun (i : ℕ) => (now + step * (i : ℚ), propEl i))

/-- Python `int()` applied to an exact quotient: truncation toward zero. -/
def ratTrunc (q : ℚ) : ℤ := if 0 ≤ q then ⌊q⌋ else ⌈q⌉

/-! ## `predict_passes` (`calculator.py` lines 166–219)

The loop state is `in_pass` plus `rise_time`/`max_el`/`max_el_time`, which the
source only reads while `in_pass` is true and always writes on entry; it is
embedded as a tagged phase. -/

/-- The `in_pass=False` / `in_pass=True` loop state of `predict_passes`. -/
inductive PassPhase
  | below
  | inPass (rise_time max_el max_el_time : ℚ)
  deriving DecidableEq

/-- Loop state of `predict_passes`: the phase plus the accumulated `passes`. -/
structure PassState where
  phase : PassPhase
  passes : List PassPrediction
  deriving DecidableEq

/-- One iteration of the `predict_passes` scan loop (lines 189–218): a failed
propagation is `continue`; otherwise the `if el > 0 and not in_pass` /
`elif el > max_el and in_pass` / `elif el <= 0 and in_pass` chain. -/
def passStep (sat : Satellite) (min_elevation : ℚ) (st : PassState) (s : Sample) :
    PassState :=
  match s.2 with
  | none => st
  | some el =>
    match st.phase with
    | .below => if 0 < el then { st with phase := .inPass s.1 el s.1 } else st
    | .inPass rise maxEl maxElT =>
      if maxEl < el then { st with phase := .inPass rise el s.1 }
      else if el ≤ 0 then
        { phase := .below
          passes := st.passes ++
            (if min_elevation ≤ maxEl then
              [{ satellite_name := sat.name
                 norad_id := sat.norad_id
                 rise_time := rise
                 set_time := s.1
                 max_elevation_time := maxElT
                 max_elevation_deg := roundTo 1 maxEl
                 duration_seconds := s.1 - rise }]
             else []) }
      else st

/-- `predict_passes(sat, …, hours, min_elevation)`: a 30-second scan over
`int(hours * 3600 / 30) = 120 * hours` steps; any pass still open at the end
of the loop is simply not appended. -/
def predict_passes (sat : Satellite) (propEl : ℕ → Option ℚ) (now : ℚ)
    (hours : ℤ) (min_elevation : ℚ) : List PassPrediction :=
  (List.foldl (passStep sat min_elevation) ⟨.below, []⟩
    (samples now 30 (120 * hours).toNat propEl)).passes

/-! ## `compute_city_coverage` (`coverage.py` lines 94–181) -/

/-- The `in_view` loop state of the per-satellite coverage scan. -/
inductive CovPhase
  | out
  | inView (window_start max_el : ℚ)
  deriving DecidableEq

/-- Loop state of the coverage scan: the phase plus accumulated windows. -/
structure CovState where
  phase : CovPhase
  windows : List CoverageWindow
  deriving DecidableEq

/-- One iteration of the coverage scan loop (lines 117–141): failed
propagation is `continue`; otherwise the `if el >= min and not in_view` /
`elif el >= min and in_view` / `elif el < min and in_view` chain. -/
def covStep (sat : Satellite) (min_elevation_deg : ℚ) (st : CovState) (s : Sample) :
    CovState :=
  match s.2 with
  | none => st
  | some el =>
    match st.phase with
    | .out =>
      if min_elevation_deg ≤ el then { st with phase := .inView s.1 el } else st
    | .inView start maxEl =>
      if min_elevation_deg ≤ el then { st with phase := .inView start (max maxEl el) }
      else
        { phase := .out
          windows := st.windows ++
            [{ satellite_name := sat.name
               norad_id := sat.norad_id
               start_time := start
               end_time := s.1
               max_elevation_deg := roundTo 1 maxEl
               duration_seconds := s.1 - start }] }

/-- The inner per-satellite scan of `compute_city_coverage` (lines 112–141):
the windows this satellite contributes, in order of discovery. -/
def covScanSat (sat : Satellite) (propEl : ℕ → Option ℚ) (now step : ℚ)
    (steps : ℕ) (min_elevation_deg : ℚ) : List CoverageWindow :=
  (List.foldl (covStep sat min_elevation_deg) ⟨.out, []⟩
    (samples now step steps propEl)).windows

/-- The consecutive-windows part of the gap loop
(`for i in range(1, len(windows))`, appending `start[i] − end[i−1]` iff > 0). -/
def consecGaps : List CoverageWindow → List ℚ
  | [] => []
  | [_] => []
  | a :: b :: rest =>
    (if 0 < b.start_time - a.end_time then [b.start_time - a.end_time] else []) ++
      consecGaps (b :: rest)

/-- The gap list of `compute_city_coverage` (lines 149–163), over the sorted
window list: start gap if positive, consecutive gaps if positive, end gap if
positive; `[total_seconds]` when there are no windows. -/
def gapsOf (ws : List CoverageWindow) (now total_seconds : ℚ) : List ℚ :=
  match ws with
  | [] => [total_seconds]
  | w0 :: rest =>
    (if 0 < w0.start_time - now then [w0.start_time - now] else []) ++
      consecGaps (w0 :: rest) ++
      (let last_gap := (now + total_seconds) - ((w0 :: rest).getLast (by simp)).end_time
       if 0 < last_gap then [last_gap] else [])

/-- `max(gaps)` on a nonempty list (the source guards emptiness separately). -/
def listMax : List ℚ → ℚ
  | [] => 0
  | x :: xs => xs.foldl max x

/-- Sorting key of `windows.sort(key=lambda w: w.start_time)` (Python's sort
is stable; so is insertion sort). -/
def startLE (a b : CoverageWindow) : Prop := a.start_time ≤ b.start_time

instance : DecidableRel startLE := fun a b =>
  inferInstanceAs (Decidable (a.start_time ≤ b.start_time))

/-- `num_steps = int(hours * 3600 / step_seconds)` (line 109). -/
def cityNumSteps (hours step_seconds : ℤ) : ℕ :=
  (ratTrunc ((hours * 3600 : ℚ) / (step_seconds : ℚ))).toNat

/-- All windows of the coverage scan, gathered per satellite in order then
sorted by `start_time` (lines 112–143). -/
def cityWindows (satellites : List Satellite) (propEl : Satellite → ℕ → Option ℚ)
    (now : ℚ) (hours step_seconds : ℤ) (min_elevation_deg : ℚ) :
    List CoverageWindow :=
  List.insertionSort startLE
    (satellites.flatMap
      (fun sat => covScanSat sat (propEl sat) now (step_seconds : ℚ)
        (cityNumSteps hours step_seconds) min_elevation_deg))

/-- The report built on the success path of `compute_city_coverage`
(lines 143–181). -/
def cityReport (satellites : List Satellite) (propEl : Satellite → ℕ → Option ℚ)
    (now : ℚ) (city_name : String) (city_lat city_lon : ℚ)
    (hours step_seconds : ℤ) (min_elevation_deg : ℚ) : CityCoverageReport :=
  let ws := cityWindows satellites propEl now hours step_seconds min_elevation_deg
  let total_coverage := (ws.map (fun w => w.duration_seconds)).sum
  let total_seconds : ℚ := (hours : ℚ) * 3600
  let coverage_pct := total_coverage / total_seconds * 100
  let gaps := gapsOf ws now total_seconds
  let avg_gap := if gaps.isEmpty then 0 else gaps.sum / gaps.length / 60
  let max_gap := if gaps.isEmpty then total_seconds / 60 else listMax gaps / 60
  let avg_pass := if ws.isEmpty then 0 else total_coverage / ws.length
  { city_name := city_name
    latitude := city_lat
    longitude := city_lon
    analysis_hours := hours
    total_coverage_seconds := total_coverage
    coverage_percentage := roundTo 2 coverage_pct
    num_passes := ws.length
    avg_gap_minutes := roundTo 1 avg_gap
    max_gap_minutes := roundTo 1 max_gap
    avg_pass_duration_seconds := roundTo 1 avg_pass
    windows := ws }

/-- `compute_city_coverage`: `Except.error` marks the two places the source
raises `ZeroDivisionError` (`num_steps` when `step_seconds = 0`, raised before
any scanning, and `coverage_pct` when `hours = 0`, raised only after the
scan).  The propagation-plus-elevation pipeline is the abstract `propEl sat i`
at time `now + step_seconds * i`. -/
def compute_city_coverage (satellites : List Satellite)
    (propEl : Satellite → ℕ → Option ℚ) (now : ℚ) (city_name : String)
    (city_lat city_lon : ℚ) (hours step_seconds : ℤ)
    (min_elevation_deg : ℚ) : Except String CityCoverageReport :=
  if step_seconds = 0 then .error "ZeroDivisionError: num_steps" else
  if (hours : ℚ) * 3600 = 0 then .error "ZeroDivisionError: coverage_pct" else
  .ok (cityReport satellites propEl now city_name city_lat city_lon hours
    step_seconds min_elevation_deg)

/-! ## `compute_ground_tracks` (`coverage.py` lines 64–91) -/

/-- One iteration of the ground-track loop (lines 76–88): failures are
skipped, successes append a rounded geodetic point. -/
def trackStep (pts : List GroundTrackPoint) (s : ℚ × Option (ℚ × ℚ × ℚ)) :
    List GroundTrackPoint :=
  match s.2 with
  | none => pts
  | some (lat, lon, alt) =>
    pts ++ [{ latitude := roundTo 4 lat, longitude := roundTo 4 lon,
              altitude_km := roundTo 1 alt, timestamp := s.1 }]

/-- The per-satellite sample grid for ground tracks (geodetic oracle). -/
def trackSamples (now step : ℚ) (steps : ℕ)
    (propGeo : ℕ → Option (ℚ × ℚ × ℚ)) : List (ℚ × Option (ℚ × ℚ × ℚ)) :=
  (List.range steps).map (fun (i : ℕ) => (now + step * (i : ℚ), propGeo i))

/-- `compute_ground_tracks`: `dict` modelled as an association list in
satellite order; `Except.error` marks the `ZeroDivisionError` when
`step_seconds = 0`. -/
def compute_ground_tracks (satellites : List Satellite)
    (propGeo : Satellite → ℕ → Option (ℚ × ℚ × ℚ)) (now : ℚ)
    (hours step_seconds : ℤ) :
    Except String (List (String × List GroundTrackPoint)) :=
  if step_seconds = 0 then .error "ZeroDivisionError: num_steps" else
  .ok (satellites.map (fun sat =>
    (sat.name,
      List.foldl trackStep []
        (trackSamples now (step_seconds : ℚ) (cityNumSteps hours step_seconds)
          (propGeo sat)))))

/-! ## The §4.4 pass-predictor state machine, from the spec's words

Written as the spec's design note suggests: a tagged-variant state advanced
one sample at a time by an explicit recursion, emitting windows as it closes
them.  Used as the reference machine for the refinement claims. -/

/-- Spec §4.4 state: `BELOW_HORIZON` or `IN_PASS{rise, max_elevation,
max_elevation_time}`. -/
inductive SpecSt
  | belowHorizon
  | inPassSt (rise max_elevation max_elevation_time : ℚ)
  deriving DecidableEq

/-- A raw window of the spec machine (unrounded peak). -/
structure SpecWin where
  rise : ℚ
  set : ℚ
  maxT : ℚ
  maxEl : ℚ
  deriving DecidableEq

/-- Spec §4.4 transition system, per its words: `BELOW_HORIZON, e > 0` enters
`IN_PASS` recording rise/peak; `IN_PASS, e ≤ 0` exits and emits iff the peak
reached `min_elevation_deg`; `IN_PASS, e > max_elevation` advances the running
maximum (first-occurrence tie-break); failed steps are skipped; a window still
open when the samples end is dropped. -/
def spec44Run (min_elevation_deg : ℚ) : SpecSt → List Sample → List SpecWin
  | _, [] => []
  | st, s :: rest =>
    match s.2 with
    | none => spec44Run min_elevation_deg st rest
    | some e =>
      match st with
      | .belowHorizon =>
        if 0 < e then spec44Run min_elevation_deg (.inPassSt s.1 e s.1) rest
        else spec44Run min_elevation_deg .belowHorizon rest
      | .inPassSt r m mt =>
        if e ≤ 0 then
          (if min_elevation_deg ≤ m then [⟨r, s.1, mt, m⟩] else []) ++
            spec44Run min_elevation_deg .belowHorizon rest
        else if m < e then spec44Run min_elevation_deg (.inPassSt r e s.1) rest
        else spec44Run min_elevation_deg st rest

/-- Packaging a spec-machine window as the source's `PassPrediction`
(peak rounded to one decimal, duration = set − rise). -/
def toPassPrediction (sat : Satellite) (w : SpecWin) : PassPrediction :=
  { satellite_name := sat.name
    norad_id := sat.norad_id
    rise_time := w.rise
    set_time := w.set
    max_elevation_time := w.maxT
    max_elevation_deg := roundTo 1 w.maxEl
    duration_seconds := w.set - w.rise }

/-! ## The threshold-crossing machine `compute_city_coverage` actually runs

Written from the corrected description: enter when `e ≥ min_elevation_deg`,
keep a running maximum, close when `e < min_elevation_deg`, and emit every
closed window unconditionally. -/

/-- State of the coverage threshold machine. -/
inductive ThreshSt
  | outside
  | inside (start max_elevation : ℚ)
  deriving DecidableEq

/-- A raw window of the threshold machine (unrounded peak). -/
structure ThreshWin where
  start : ℚ
  stop : ℚ
  maxEl : ℚ
  deriving DecidableEq

/-- The threshold-crossing machine: enter at `e ≥ min`, running maximum,
close and always emit at `e < min`, skip failed steps, drop an open window. -/
def thresholdRun (min_elevation_deg : ℚ) : ThreshSt → List Sample → List ThreshWin
  | _, [] => []
  | st, s :: rest =>
    match s.2 with
    | none => thresholdRun min_elevation_deg st rest
    | some e =>
      match st with
      | .outside =>
        if e < min_elevation_deg then thresholdRun min_elevation_deg .outside rest
        else thresholdRun min_elevation_deg (.inside s.1 e) rest
      | .inside start m =>
        if e < min_elevation_deg then
          ⟨start, s.1, m⟩ :: thresholdRun min_elevation_deg .outside rest
        else thresholdRun min_elevation_deg (.inside start (max m e)) rest

/-- Packaging a threshold-machine window as the source's `CoverageWindow`. -/
def toCoverageWindow (sat : Satellite) (w : ThreshWin) : CoverageWindow :=
  { satellite_name := sat.name
    norad_id := sat.norad_id
    start_time := w.start
    end_time := w.stop
    max_elevation_deg := roundTo 1 w.maxEl
    duration_seconds := w.stop - w.start }

/-! ## Geometry over ℝ (`calculator.py` frame/geodesy, `coverage.py` footprint)

The float formulas are embedded as exact real functions. -/

noncomputable section

/-- WGS84 equatorial radius (km), `calculator.py` line 11. -/
def WGS84_A : ℝ := 6378.137

/-- WGS84 flattening, line 12. -/
def WGS84_F : ℝ := 1 / 298.257223563

/-- WGS84 semi-minor axis, line 13. -/
def WGS84_B : ℝ := WGS84_A * (1 - WGS84_F)

/-- WGS84 first eccentricity squared, line 14. -/
def WGS84_E2 : ℝ := (WGS84_A ^ 2 - WGS84_B ^ 2) / WGS84_A ^ 2

/-- `math.radians`. -/
def radians (d : ℝ) : ℝ := d * Real.pi / 180

/-- `math.degrees`. -/
def degrees (r : ℝ) : ℝ := r * 180 / Real.pi

/-- `math.atan2` (quadrant-correct arctangent). -/
def atan2 (y x : ℝ) : ℝ :=
  if 0 < x then Real.arctan (y / x)
  else if x < 0 then
    (if 0 ≤ y then Real.arctan (y / x) + Real.pi else Real.arctan (y / x) - Real.pi)
  else if 0 < y then Real.pi / 2
  else if y < 0 then -(Real.pi / 2)
  else 0

/-- The threshold `1e-10` of the two degeneracy guards. -/
def tinyEps : ℝ := 1 / 10 ^ 10

/-- The auxiliary parametric angle `theta` of `_ecef_to_geodetic` (line 75). -/
def geodeticTheta (x y z : ℝ) : ℝ :=
  atan2 (z * WGS84_A) (Real.sqrt (x ^ 2 + y ^ 2) * WGS84_B)

/-- The latitude (radians) computed by `_ecef_to_geodetic` (lines 76–79). -/
def geodeticLat (x y z : ℝ) : ℝ :=
  atan2
    (z + (WGS84_A ^ 2 - WGS84_B ^ 2) / WGS84_B * Real.sin (geodeticTheta x y z) ^ 3)
    (Real.sqrt (x ^ 2 + y ^ 2) - WGS84_E2 * WGS84_A * Real.cos (geodeticTheta x y z) ^ 3)

/-- `_ecef_to_geodetic` (lines 71–86): Bowring's method, returning
`(lat_deg, lon_deg, alt_km)`; near the pole (`|cos lat| ≤ 1e-10`) the
altitude falls back to `|z| − semi_minor_axis`. -/
def ecef_to_geodetic (x y z : ℝ) : ℝ × ℝ × ℝ :=
  let lon := atan2 y x
  let p := Real.sqrt (x ^ 2 + y ^ 2)
  let lat := geodeticLat x y z
  let sin_lat := Real.sin lat
  let N := WGS84_A / Real.sqrt (1 - WGS84_E2 * sin_lat ^ 2)
  let alt := if tinyEps < |Real.cos lat| then p / Real.cos lat - N else |z| - WGS84_B
  (degrees lat, degrees lon, alt)

/-- `_geodetic_to_ecef` (lines 89–99). -/
def geodetic_to_ecef (lat_deg lon_deg alt_km : ℝ) : ℝ × ℝ × ℝ :=
  let lat := radians lat_deg
  let lon := radians lon_deg
  let sin_lat := Real.sin lat
  let cos_lat := Real.cos lat
  let N := WGS84_A / Real.sqrt (1 - WGS84_E2 * sin_lat ^ 2)
  ((N + alt_km) * cos_lat * Real.cos lon,
   (N + alt_km) * cos_lat * Real.sin lon,
   (N * (1 - WGS84_E2) + alt_km) * sin_lat)

/-- The topocentric South-East-Zenith components of `_elevation_from_observer`
(lines 106–119). -/
def sezVec (obs_lat obs_lon obs_alt_km : ℝ) (sat_ecef : ℝ × ℝ × ℝ) : ℝ × ℝ × ℝ :=
  let o := geodetic_to_ecef obs_lat obs_lon obs_alt_km
  let dx := sat_ecef.1 - o.1
  let dy := sat_ecef.2.1 - o.2.1
  let dz := sat_ecef.2.2 - o.2.2
  let lat := radians obs_lat
  let lon := radians obs_lon
  (Real.sin lat * Real.cos lon * dx + Real.sin lat * Real.sin lon * dy -
     Real.cos lat * dz,
   -Real.sin lon * dx + Real.cos lon * dy,
   Real.cos lat * Real.cos lon * dx + Real.cos lat * Real.sin lon * dy +
     Real.sin lat * dz)

/-- The observer-to-target range (line 121). -/
def rangeKm (obs_lat obs_lon obs_alt_km : ℝ) (sat_ecef : ℝ × ℝ × ℝ) : ℝ :=
  let s := sezVec obs_lat obs_lon obs_alt_km sat_ecef
  Real.sqrt (s.1 ^ 2 + s.2.1 ^ 2 + s.2.2 ^ 2)

/-- `_elevation_from_observer` (lines 102–124): elevation angle in degrees;
range below `1e-10` km returns `90.0`. -/
def elevation_from_observer (obs_lat obs_lon obs_alt_km : ℝ)
    (sat_ecef : ℝ × ℝ × ℝ) : ℝ :=
  let r := rangeKm obs_lat obs_lon obs_alt_km sat_ecef
  if r < tinyEps then 90
  else degrees (Real.arcsin ((sezVec obs_lat obs_lon obs_alt_km sat_ecef).2.2 / r))

/-- `footprint_radius_km` (`coverage.py` lines 53–61). -/
def footprint_radius_km (altitude_km : ℝ) (min_elevation_deg : ℝ) : ℝ :=
  let R := WGS84_A
  let theta := radians min_elevation_deg
  let cos_val := R * Real.cos theta / (R + altitude_km)
  if 1 ≤ cos_val then 0 else R * (Real.arccos cos_val - theta)

end

/-! ## General fold lemmas -/

/-- A fold whose step ignores `none` samples may drop any `none` tail of the
scan grid. -/
theorem foldl_none_tail {β : Type} (f : β → Sample → β)
    (hf : ∀ st t, f st (t, none) = st) (now step : ℚ) (propEl : ℕ → Option ℚ)
    (k n : ℕ) (hk : k ≤ n) (hnone : ∀ i, k ≤ i → propEl i = none) (st : β) :
    List.foldl f st (samples now step n propEl) =
      List.foldl f st (samples now step k propEl) := by
  obtain ⟨d, rfl⟩ : ∃ d, n = k + d := ⟨n - k, by omega⟩
  unfold samples
  rw [List.range_add, List.map_append, List.foldl_append]
  generalize List.foldl f st (List.map _ (List.range k)) = st'
  have key : ∀ (l : List ℕ), (∀ i ∈ l, propEl i = none) →
      List.foldl f st'
        (l.map (fun (i : ℕ) => (now + step * (i : ℚ), propEl i))) = st' := by
    intro l
    induction l with
    | nil => intro _; rfl
    | cons a as ih =>
      intro h
      simp only [List.map_cons, List.foldl_cons]
      rw [h a (by simp), hf, ih (fun i hi => h i (by simp [hi]))]
  rw [key ((List.range d).map (fun i => k + i)) ?side]
  case side =>
    intro i hi
    simp only [List.mem_map, List.mem_range] at hi
    obtain ⟨j, _, rfl⟩ := hi
    exact hnone _ (Nat.le_add_right k j)

/-- A fold whose step ignores `none` samples computes the same value on the
sub-list of successful samples. -/
theorem foldl_filter_isSome {α β : Type} (f : β → ℚ × Option α → β)
    (hf : ∀ st t, f st (t, none) = st) :
    ∀ (l : List (ℚ × Option α)) (st : β),
      List.foldl f st l = List.foldl f st (l.filter (fun s => s.2.isSome)) := by
  intro l
  induction l with
  | nil => intro st; rfl
  | cons s rest ih =>
    intro st
    match hs : s.2 with
    | none =>
      obtain ⟨t, s2⟩ := s
      simp only at hs
      subst hs
      simp only [List.foldl_cons, hf, List.filter_cons, Option.isSome_none]
      rw [if_neg (by simp)]
      exact ih st
    | some a =>
      obtain ⟨t, s2⟩ := s
      simp only at hs
      subst hs
      simp only [List.foldl_cons, List.filter_cons, Option.isSome_some]
      rw [if_pos trivial]
      simp only [List.foldl_cons]
      exact ih _

/-! ## Rounding lemmas -/

theorem floor_le_pyRound (q : ℚ) : ⌊q⌋ ≤ pyRound q := by
  unfold pyRound
  split_ifs <;> omega

theorem pyRound_le_add_half (q : ℚ) : (pyRound q : ℚ) ≤ q + 1/2 := by
  have h1 : (⌊q⌋ : ℚ) ≤ q := Int.floor_le q
  have h2 : q < (⌊q⌋ : ℚ) + 1 := Int.lt_floor_add_one q
  unfold pyRound
  split_ifs <;> push_cast <;> linarith

theorem sub_half_le_pyRound (q : ℚ) : q - 1/2 ≤ (pyRound q : ℚ) := by
  have h1 : (⌊q⌋ : ℚ) ≤ q := Int.floor_le q
  have h2 : q < (⌊q⌋ : ℚ) + 1 := Int.lt_floor_add_one q
  unfold pyRound
  split_ifs <;> push_cast <;> linarith

theorem int_le_pyRound (k : ℤ) (q : ℚ) (h : (k : ℚ) ≤ q) : k ≤ pyRound q :=
  le_trans (Int.le_floor.mpr h) (floor_le_pyRound q)

theorem roundTo_le_add (d : ℕ) (q : ℚ) : roundTo d q ≤ q + 1 / (2 * 10 ^ d) := by
  have hp : (0 : ℚ) < 10 ^ d := by positivity
  have := pyRound_le_add_half (q * 10 ^ d)
  unfold roundTo
  rw [div_le_iff₀ hp]
  calc (pyRound (q * 10 ^ d) : ℚ) ≤ q * 10 ^ d + 1/2 := this
    _ = (q + 1 / (2 * 10 ^ d)) * 10 ^ d := by field_simp; ring

theorem sub_le_roundTo (d : ℕ) (q : ℚ) : q - 1 / (2 * 10 ^ d) ≤ roundTo d q := by
  have hp : (0 : ℚ) < 10 ^ d := by positivity
  have := sub_half_le_pyRound (q * 10 ^ d)
  unfold roundTo
  rw [le_div_iff₀ hp]
  calc (q - 1 / (2 * 10 ^ d)) * 10 ^ d = q * 10 ^ d - 1/2 := by field_simp; ring
    _ ≤ (pyRound (q * 10 ^ d) : ℚ) := this

/-- Thresholds that are exact multiples of `10^(-d)` survive `roundTo d`. -/
theorem roundTo_ge_of_int_div (d : ℕ) (k : ℤ) (q : ℚ)
    (h : (k : ℚ) / 10 ^ d ≤ q) : (k : ℚ) / 10 ^ d ≤ roundTo d q := by
  have hp : (0 : ℚ) < 10 ^ d := by positivity
  have hk : (k : ℚ) ≤ q * 10 ^ d := by
    rw [div_le_iff₀ hp] at h; exact h
  have := int_le_pyRound k (q * 10 ^ d) hk
  unfold roundTo
  rw [div_le_div_iff₀ hp hp]
  have : (k : ℚ) ≤ (pyRound (q * 10 ^ d) : ℚ) := by exact_mod_cast this
  nlinarith

theorem roundTo_zero (d : ℕ) : roundTo d 0 = 0 := by
  unfold roundTo pyRound
  norm_num

/-! ## Bridging the source folds to the explicit state machines -/

/-- The `in_pass` flag plus its companion variables, as a spec state. -/
def phaseToSpec : PassPhase → SpecSt
  | .below => .belowHorizon
  | .inPass r m mt => .inPassSt r m mt

/-- The `in_view` flag plus its companion variables, as a threshold state. -/
def covPhaseToThresh : CovPhase → ThreshSt
  | .out => .outside
  | .inView start m => .inside start m

/-- The `predict_passes` fold agrees with the §4.4 machine, provided the
running maximum is positive whenever the state is in-pass (which entry
guarantees, since entry requires elevation `> 0`). -/
theorem passFold_eq_spec44 (sat : Satellite) (min_el : ℚ) :
    ∀ (l : List Sample) (ph : PassPhase) (acc : List PassPrediction),
      (∀ r m mt, ph = .inPass r m mt → 0 < m) →
      (List.foldl (passStep sat min_el) ⟨ph, acc⟩ l).passes =
        acc ++ (spec44Run min_el (phaseToSpec ph) l).map (toPassPrediction sat) := by
  intro l
  induction l with
  | nil => intro ph acc _; simp [spec44Run]
  | cons s rest ih =>
    intro ph acc hph
    obtain ⟨t, res⟩ := s
    match res with
    | none =>
      simp only [List.foldl_cons, passStep, spec44Run]
      exact ih ph acc hph
    | some e =>
      match ph with
      | .below =>
        simp only [List.foldl_cons, passStep, phaseToSpec, spec44Run]
        by_cases he : 0 < e
        · rw [if_pos he, if_pos he]
          exact ih (.inPass t e t) acc (by rintro r m mt ⟨⟩; exact he)
        · rw [if_neg he, if_neg he]
          exact ih .below acc (by rintro r m mt ⟨⟩)
      | .inPass r m mt =>
        have hm : 0 < m := hph r m mt rfl
        simp only [List.foldl_cons, passStep, phaseToSpec, spec44Run]
        by_cases hup : m < e
        · have hne : ¬ e ≤ 0 := by linarith
          rw [if_pos hup, if_neg hne, if_pos hup]
          exact ih (.inPass r e t) acc (by rintro r' m' mt' ⟨⟩; linarith)
        · rw [if_neg hup]
          by_cases hclose : e ≤ 0
          · rw [if_pos hclose, if_pos hclose]
            rw [ih .below _ (by rintro r' m' mt' ⟨⟩)]
            simp only [phaseToSpec, List.map_append, List.append_assoc]
            by_cases hemit : min_el ≤ m
            · rw [if_pos hemit, if_pos hemit]
              simp [toPassPrediction]
            · rw [if_neg hemit, if_neg hemit]
              simp
          · rw [if_neg hclose, if_neg hclose, if_neg hup]
            exact ih (.inPass r m mt) acc (by rintro r' m' mt' ⟨⟩; exact hm)

/-- `predict_passes` is exactly the §4.4 machine run over the 30-second grid
(with the peak rounded to one decimal on output). -/
theorem predict_passes_eq_spec44 (sat : Satellite) (propEl : ℕ → Option ℚ)
    (now : ℚ) (hours : ℤ) (min_el : ℚ) :
    predict_passes sat propEl now hours min_el =
      (spec44Run min_el .belowHorizon (samples now 30 (120 * hours).toNat propEl)).map
        (toPassPrediction sat) := by
  unfold predict_passes
  rw [passFold_eq_spec44 sat min_el _ .below [] (by rintro r m mt ⟨⟩)]
  rfl

/-- The coverage fold agrees with the threshold-crossing machine. -/
theorem covFold_eq_threshold (sat : Satellite) (min_el : ℚ) :
    ∀ (l : List Sample) (ph : CovPhase) (acc : List CoverageWindow),
      (List.foldl (covStep sat min_el) ⟨ph, acc⟩ l).windows =
        acc ++ (thresholdRun min_el (covPhaseToThresh ph) l).map
          (toCoverageWindow sat) := by
  intro l
  induction l with
  | nil => intro ph acc; simp [thresholdRun]
  | cons s rest ih =>
    intro ph acc
    obtain ⟨t, res⟩ := s
    match res with
    | none =>
      simp only [List.foldl_cons, covStep, thresholdRun]
      exact ih ph acc
    | some e =>
      match ph with
      | .out =>
        simp only [List.foldl_cons, covStep, covPhaseToThresh, thresholdRun]
        by_cases he : min_el ≤ e
        · rw [if_pos he, if_neg (not_lt.mpr he)]
          exact ih (.inView t e) acc
        · rw [if_neg he, if_pos (not_le.mp he)]
          exact ih .out acc
      | .inView start m =>
        simp only [List.foldl_cons, covStep, covPhaseToThresh, thresholdRun]
        by_cases he : min_el ≤ e
        · rw [if_pos he, if_neg (not_lt.mpr he)]
          exact ih (.inView start (max m e)) acc
        · rw [if_neg he, if_pos (not_le.mp he)]
          rw [ih .out _]
          simp [toCoverageWindow, covPhaseToThresh]

/-- The per-satellite coverage scan is exactly the threshold machine. -/
theorem covScanSat_eq_threshold (sat : Satellite) (propEl : ℕ → Option ℚ)
    (now step : ℚ) (steps : ℕ) (min_el : ℚ) :
    covScanSat sat propEl now step steps min_el =
      (thresholdRun min_el .outside (samples now step steps propEl)).map
        (toCoverageWindow sat) := by
  unfold covScanSat
  rw [covFold_eq_threshold sat min_el _ .out []]
  rfl

/-! ## Properties of the sample grid -/

theorem mem_samples {now step : ℚ} {n : ℕ} {propEl : ℕ → Option ℚ} {s : Sample}
    (h : s ∈ samples now step n propEl) :
    ∃ j, j < n ∧ s = (now + step * (j : ℚ), propEl j) := by
  unfold samples at h
  obtain ⟨j, hj, rfl⟩ := List.mem_map.mp h
  exact ⟨j, List.mem_range.mp hj, rfl⟩

theorem samples_pairwise (now step : ℚ) (hstep : 0 < step) (n : ℕ)
    (propEl : ℕ → Option ℚ) :
    (samples now step n propEl).Pairwise (fun a b => a.1 < b.1) := by
  unfold samples
  rw [List.pairwise_map]
  refine (List.pairwise_lt_range n).imp ?_
  intro i j hij
  have : (i : ℚ) < (j : ℚ) := by exact_mod_cast hij
  simpa using add_lt_add_left (mul_lt_mul_of_pos_left this hstep) now

/-! ## Properties of the §4.4 machine's output windows -/

theorem spec44Run_mem (min_el : ℚ) :
    ∀ (l : List Sample), l.Pairwise (fun a b => a.1 < b.1) →
      ∀ (st : SpecSt),
      (∀ r m mt, st = .inPassSt r m mt → 0 < m ∧ r ≤ mt ∧ ∀ s ∈ l, mt < s.1) →
      ∀ w ∈ spec44Run min_el st l,
        w.rise ≤ w.maxT ∧ w.maxT < w.set ∧ min_el ≤ w.maxEl ∧
          ∃ s ∈ l, w.set = s.1 ∧ ∃ e, s.2 = some e ∧ e ≤ 0 := by
  intro l
  induction l with
  | nil => intro _ st _ w hw; simp [spec44Run] at hw
  | cons s rest ih =>
    intro hp st hst w hw
    obtain ⟨hhead, hrest⟩ := List.pairwise_cons.mp hp
    obtain ⟨t, res⟩ := s
    match res with
    | none =>
      rw [show spec44Run min_el st ((t, none) :: rest) = spec44Run min_el st rest
        from rfl] at hw
      obtain ⟨h1, h2, h3, sw, hsw, h4⟩ := ih hrest st
        (fun r m mt h => ⟨(hst r m mt h).1, (hst r m mt h).2.1,
          fun x hx => (hst r m mt h).2.2 x (List.mem_cons_of_mem _ hx)⟩) w hw
      exact ⟨h1, h2, h3, sw, List.mem_cons_of_mem _ hsw, h4⟩
    | some e =>
      match st with
      | .belowHorizon =>
        rw [show spec44Run min_el .belowHorizon ((t, some e) :: rest) =
          (if 0 < e then spec44Run min_el (.inPassSt t e t) rest
           else spec44Run min_el .belowHorizon rest) from rfl] at hw
        by_cases he : 0 < e
        · rw [if_pos he] at hw
          obtain ⟨h1, h2, h3, sw, hsw, h4⟩ := ih hrest (.inPassSt t e t)
            (by rintro r m mt ⟨⟩
                exact ⟨he, le_refl t, fun x hx => hhead x hx⟩) w hw
          exact ⟨h1, h2, h3, sw, List.mem_cons_of_mem _ hsw, h4⟩
        · rw [if_neg he] at hw
          obtain ⟨h1, h2, h3, sw, hsw, h4⟩ := ih hrest .belowHorizon
            (by rintro r m mt ⟨⟩) w hw
          exact ⟨h1, h2, h3, sw, List.mem_cons_of_mem _ hsw, h4⟩
      | .inPassSt r m mt =>
        obtain ⟨hm, hrmt, hmtl⟩ := hst r m mt rfl
        rw [show spec44Run min_el (.inPassSt r m mt) ((t, some e) :: rest) =
          (if e ≤ 0 then
            (if min_el ≤ m then [⟨r, t, mt, m⟩] else []) ++
              spec44Run min_el .belowHorizon rest
          else if m < e then spec44Run min_el (.inPassSt r e t) rest
          else spec44Run min_el (.inPassSt r m mt) rest) from rfl] at hw
        by_cases hclose : e ≤ 0
        · rw [if_pos hclose] at hw
          rcases List.mem_append.mp hw with hw1 | hw2
          · by_cases hemit : min_el ≤ m
            · rw [if_pos hemit, List.mem_singleton] at hw1
              subst hw1
              refine ⟨hrmt, hmtl _ (List.mem_cons_self _ _), hemit,
                (t, some e), List.mem_cons_self _ _, rfl, e, rfl, hclose⟩
            · rw [if_neg hemit] at hw1
              simp at hw1
          · obtain ⟨h1, h2, h3, sw, hsw, h4⟩ := ih hrest .belowHorizon
              (by rintro r' m' mt' ⟨⟩) w hw2
            exact ⟨h1, h2, h3, sw, List.mem_cons_of_mem _ hsw, h4⟩
        · rw [if_neg hclose] at hw
          by_cases hup : m < e
          · rw [if_pos hup] at hw
            obtain ⟨h1, h2, h3, sw, hsw, h4⟩ := ih hrest (.inPassSt r e t)
              (by rintro r' m' mt' ⟨⟩
                  exact ⟨lt_trans hm hup,
                    le_of_lt (lt_of_le_of_lt hrmt (hmtl _ (List.mem_cons_self _ _))),
                    fun x hx => hhead x hx⟩) w hw
            exact ⟨h1, h2, h3, sw, List.mem_cons_of_mem _ hsw, h4⟩
          · rw [if_neg hup] at hw
            obtain ⟨h1, h2, h3, sw, hsw, h4⟩ := ih hrest (.inPassSt r m mt)
              (by rintro r' m' mt' ⟨⟩
                  exact ⟨hm, hrmt,
                    fun x hx => hmtl x (List.mem_cons_of_mem _ hx)⟩) w hw
            exact ⟨h1, h2, h3, sw, List.mem_cons_of_mem _ hsw, h4⟩

theorem spec44Run_rise_lb (min_el : ℚ) :
    ∀ (l : List Sample) (st : SpecSt) (T : ℚ),
      (∀ s ∈ l, T ≤ s.1) →
      (∀ r m mt, st = .inPassSt r m mt → T ≤ r) →
      ∀ w ∈ spec44Run min_el st l, T ≤ w.rise := by
  intro l
  induction l with
  | nil => intro st T _ _ w hw; simp [spec44Run] at hw
  | cons s rest ih =>
    intro st T hT hst w hw
    have hTrest : ∀ x ∈ rest, T ≤ x.1 := fun x hx => hT x (List.mem_cons_of_mem _ hx)
    obtain ⟨t, res⟩ := s
    match res with
    | none => exact ih st T hTrest hst w hw
    | some e =>
      match st with
      | .belowHorizon =>
        rw [show spec44Run min_el .belowHorizon ((t, some e) :: rest) =
          (if 0 < e then spec44Run min_el (.inPassSt t e t) rest
           else spec44Run min_el .belowHorizon rest) from rfl] at hw
        by_cases he : 0 < e
        · rw [if_pos he] at hw
          exact ih (.inPassSt t e t) T hTrest
            (by rintro r m mt ⟨⟩; exact hT _ (List.mem_cons_self _ _)) w hw
        · rw [if_neg he] at hw
          exact ih .belowHorizon T hTrest (by rintro r m mt ⟨⟩) w hw
      | .inPassSt r m mt =>
        have hTr : T ≤ r := hst r m mt rfl
        rw [show spec44Run min_el (.inPassSt r m mt) ((t, some e) :: rest) =
          (if e ≤ 0 then
            (if min_el ≤ m then [⟨r, t, mt, m⟩] else []) ++
              spec44Run min_el .belowHorizon rest
          else if m < e then spec44Run min_el (.inPassSt r e t) rest
          else spec44Run min_el (.inPassSt r m mt) rest) from rfl] at hw
        by_cases hclose : e ≤ 0
        · rw [if_pos hclose] at hw
          rcases List.mem_append.mp hw with hw1 | hw2
          · by_cases hemit : min_el ≤ m
            · rw [if_pos hemit, List.mem_singleton] at hw1
              subst hw1
              exact hTr
            · rw [if_neg hemit] at hw1; simp at hw1
          · exact ih .belowHorizon T hTrest (by rintro r' m' mt' ⟨⟩) w hw2
        · rw [if_neg hclose] at hw
          by_cases hup : m < e
          · rw [if_pos hup] at hw
            exact ih (.inPassSt r e t) T hTrest
              (by rintro r' m' mt' ⟨⟩; exact hTr) w hw
          · rw [if_neg hup] at hw
            exact ih (.inPassSt r m mt) T hTrest
              (by rintro r' m' mt' ⟨⟩; exact hTr) w hw

theorem spec44Run_pairwise (min_el : ℚ) :
    ∀ (l : List Sample), l.Pairwise (fun a b => a.1 < b.1) →
      ∀ (st : SpecSt),
      (∀ r m mt, st = .inPassSt r m mt → r ≤ mt ∧ ∀ s ∈ l, mt < s.1) →
      (spec44Run min_el st l).Pairwise
        (fun p q => p.rise < q.rise ∧ p.set ≤ q.rise) := by
  intro l
  induction l with
  | nil => intro _ st _; simp [spec44Run]
  | cons s rest ih =>
    intro hp st hst
    obtain ⟨hhead, hrest⟩ := List.pairwise_cons.mp hp
    obtain ⟨t, res⟩ := s
    match res with
    | none =>
      exact ih hrest st (fun r m mt h => ⟨(hst r m mt h).1,
        fun x hx => (hst r m mt h).2 x (List.mem_cons_of_mem _ hx)⟩)
    | some e =>
      match st with
      | .belowHorizon =>
        show (if 0 < e then spec44Run min_el (.inPassSt t e t) rest
          else spec44Run min_el .belowHorizon rest).Pairwise _
        by_cases he : 0 < e
        · rw [if_pos he]
          exact ih hrest (.inPassSt t e t)
            (by rintro r m mt ⟨⟩; exact ⟨le_refl t, fun x hx => hhead x hx⟩)
        · rw [if_neg he]
          exact ih hrest .belowHorizon (by rintro r m mt ⟨⟩)
      | .inPassSt r m mt =>
        obtain ⟨hrmt, hmtl⟩ := hst r m mt rfl
        have hmt_t : mt < t := hmtl _ (List.mem_cons_self _ _)
        show (if e ≤ 0 then
            (if min_el ≤ m then [⟨r, t, mt, m⟩] else []) ++
              spec44Run min_el .belowHorizon rest
          else if m < e then spec44Run min_el (.inPassSt r e t) rest
          else spec44Run min_el (.inPassSt r m mt) rest).Pairwise _
        by_cases hclose : e ≤ 0
        · rw [if_pos hclose]
          have hbelow := ih hrest .belowHorizon (by rintro r' m' mt' ⟨⟩)
          by_cases hemit : min_el ≤ m
          · rw [if_pos hemit]
            rw [List.singleton_append, List.pairwise_cons]
            refine ⟨?_, hbelow⟩
            intro w' hw'
            have hlb : t ≤ w'.rise := spec44Run_rise_lb min_el rest .belowHorizon t
              (fun x hx => le_of_lt (hhead x hx)) (by rintro r' m' mt' ⟨⟩) w' hw'
            exact ⟨lt_of_le_of_lt hrmt (lt_of_lt_of_le hmt_t hlb), hlb⟩
          · rw [if_neg hemit, List.nil_append]
            exact hbelow
        · rw [if_neg hclose]
          by_cases hup : m < e
          · rw [if_pos hup]
            exact ih hrest (.inPassSt r e t)
              (by rintro r' m' mt' ⟨⟩
                  exact ⟨le_of_lt (lt_of_le_of_lt hrmt hmt_t),
                    fun x hx => hhead x hx⟩)
          · rw [if_neg hup]
            exact ih hrest (.inPassSt r m mt)
              (by rintro r' m' mt' ⟨⟩
                  exact ⟨hrmt, fun x hx => hmtl x (List.mem_cons_of_mem _ hx)⟩)

/-! ## Properties of the threshold machine's output windows -/

theorem thresholdRun_mem (min_el : ℚ) :
    ∀ (l : List Sample) (st : ThreshSt), ∀ w ∈ thresholdRun min_el st l,
      ∃ s ∈ l, w.stop = s.1 ∧ ∃ e, s.2 = some e ∧ e < min_el := by
  intro l
  induction l with
  | nil => intro st w hw; simp [thresholdRun] at hw
  | cons s rest ih =>
    intro st w hw
    obtain ⟨t, res⟩ := s
    match res with
    | none =>
      obtain ⟨sw, hsw, h⟩ := ih st w hw
      exact ⟨sw, List.mem_cons_of_mem _ hsw, h⟩
    | some e =>
      match st with
      | .outside =>
        rw [show thresholdRun min_el .outside ((t, some e) :: rest) =
          (if e < min_el then thresholdRun min_el .outside rest
           else thresholdRun min_el (.inside t e) rest) from rfl] at hw
        by_cases he : e < min_el
        · rw [if_pos he] at hw
          obtain ⟨sw, hsw, h⟩ := ih .outside w hw
          exact ⟨sw, List.mem_cons_of_mem _ hsw, h⟩
        · rw [if_neg he] at hw
          obtain ⟨sw, hsw, h⟩ := ih (.inside t e) w hw
          exact ⟨sw, List.mem_cons_of_mem _ hsw, h⟩
      | .inside start m =>
        rw [show thresholdRun min_el (.inside start m) ((t, some e) :: rest) =
          (if e < min_el then
            ⟨start, t, m⟩ :: thresholdRun min_el .outside rest
           else thresholdRun min_el (.inside start (max m e)) rest) from rfl] at hw
        by_cases he : e < min_el
        · rw [if_pos he] at hw
          rcases List.mem_cons.mp hw with hw1 | hw2
          · subst hw1
            exact ⟨(t, some e), List.mem_cons_self _ _, rfl, e, rfl, he⟩
          · obtain ⟨sw, hsw, h⟩ := ih .outside w hw2
            exact ⟨sw, List.mem_cons_of_mem _ hsw, h⟩
        · rw [if_neg he] at hw
          obtain ⟨sw, hsw, h⟩ := ih (.inside start (max m e)) w hw
          exact ⟨sw, List.mem_cons_of_mem _ hsw, h⟩

/-! ## The gap list, characterised -/

/-- The gap list as the claim describes it: the start-to-first-window gap, the
between-consecutive-windows gaps and the last-window-to-horizon-end gap, each
kept only if positive; a single full-horizon entry when there are no windows.
(This definition follows the claim's wording; it is compared with the source's
`gapsOf`.) -/
def specGapList (ws : List CoverageWindow) (now horizon : ℚ) : List ℚ :=
  match ws with
  | [] => [horizon]
  | w0 :: rest =>
    ((w0.start_time - now) ::
      ((w0 :: rest).zip rest).map (fun p => p.2.start_time - p.1.end_time) ++
        [(now + horizon) - ((w0 :: rest).getLast (by simp)).end_time]).filter
      (fun g => decide (0 < g))

theorem consecGaps_eq_filter :
    ∀ (l : List CoverageWindow),
      consecGaps l =
        ((l.zip l.tail).map (fun p => p.2.start_time - p.1.end_time)).filter
          (fun g => decide (0 < g)) := by
  intro l
  match l with
  | [] => rfl
  | [a] => rfl
  | a :: b :: rest =>
    rw [show consecGaps (a :: b :: rest) =
      (if 0 < b.start_time - a.end_time then [b.start_time - a.end_time] else []) ++
        consecGaps (b :: rest) from rfl]
    rw [consecGaps_eq_filter (b :: rest)]
    rw [show (a :: b :: rest).zip (a :: b :: rest).tail =
      (a, b) :: ((b :: rest).zip (b :: rest).tail) from rfl]
    rw [List.map_cons, List.filter_cons]
    by_cases hg : 0 < b.start_time - a.end_time
    · rw [if_pos hg, if_pos (by simpa using hg)]
      rfl
    · rw [if_neg hg, if_neg (by simpa using hg)]
      rfl

/-- The source's conditional-append gap loop builds exactly the claim's
filtered candidate list. -/
theorem gapsOf_eq_specGapList (ws : List CoverageWindow) (now horizon : ℚ) :
    gapsOf ws now horizon = specGapList ws now horizon := by
  match ws with
  | [] => rfl
  | w0 :: rest =>
    rw [show gapsOf (w0 :: rest) now horizon =
      (if 0 < w0.start_time - now then [w0.start_time - now] else []) ++
        consecGaps (w0 :: rest) ++
        (if 0 < (now + horizon) - ((w0 :: rest).getLast (by simp)).end_time then
          [(now + horizon) - ((w0 :: rest).getLast (by simp)).end_time] else [])
      from rfl]
    rw [show specGapList (w0 :: rest) now horizon =
      ((w0.start_time - now) ::
        ((w0 :: rest).zip rest).map (fun p => p.2.start_time - p.1.end_time) ++
          [(now + horizon) - ((w0 :: rest).getLast (by simp)).end_time]).filter
        (fun g => decide (0 < g)) from rfl]
    rw [consecGaps_eq_filter (w0 :: rest)]
    rw [show (w0 :: rest).tail = rest from rfl]
    simp only [List.filter_cons, List.filter_append, List.filter_nil]
    by_cases h1 : 0 < w0.start_time - now <;>
      by_cases h2 : 0 < (now + horizon) -
        ((w0 :: rest).getLast (by simp)).end_time <;>
      simp [h1, h2, List.append_assoc]

/-! ## `listMax` is the maximum of a nonempty list -/

theorem foldl_max_facts (l : List ℚ) :
    ∀ (a : ℚ), (l.foldl max a ∈ a :: l) ∧ a ≤ l.foldl max a ∧
      ∀ x ∈ l, x ≤ l.foldl max a := by
  induction l with
  | nil => intro a; simp
  | cons b bs ih =>
    intro a
    obtain ⟨hmem, hle, hall⟩ := ih (max a b)
    refine ⟨?_, ?_, ?_⟩
    · show List.foldl max (max a b) bs ∈ a :: b :: bs
      rcases List.mem_cons.mp hmem with h | h
      · rw [h]
        rcases max_choice a b with hc | hc <;> rw [hc] <;> simp
      · exact List.mem_cons_of_mem _ (List.mem_cons_of_mem _ h)
    · show a ≤ List.foldl max (max a b) bs
      exact le_trans (le_max_left a b) hle
    · intro x hx
      show x ≤ List.foldl max (max a b) bs
      rcases List.mem_cons.mp hx with h | h
      · subst h
        exact le_trans (le_max_right a x) hle
      · exact hall x h

theorem listMax_spec (l : List ℚ) (h : l ≠ []) :
    listMax l ∈ l ∧ ∀ x ∈ l, x ≤ listMax l := by
  match l with
  | [] => exact absurd rfl h
  | x :: xs =>
    obtain ⟨hmem, hle, hall⟩ := foldl_max_facts xs x
    exact ⟨hmem, fun y hy => by
      rcases List.mem_cons.mp hy with h1 | h1
      · subst h1; exact hle
      · exact hall y h1⟩

/-! ## Arithmetic facts about the step count -/

theorem cityNumSteps_mul_le (hours step_seconds : ℤ) (hh : 0 < hours)
    (hs : 0 < step_seconds) :
    (step_seconds : ℚ) * (cityNumSteps hours step_seconds : ℚ) ≤
      (hours : ℚ) * 3600 := by
  have hsq : (0 : ℚ) < (step_seconds : ℚ) := by exact_mod_cast hs
  have hhq : (0 : ℚ) < (hours : ℚ) := by exact_mod_cast hh
  have hq : (0 : ℚ) ≤ (hours * 3600 : ℚ) / (step_seconds : ℚ) := by
    apply div_nonneg _ (le_of_lt hsq)
    nlinarith
  unfold cityNumSteps ratTrunc
  rw [if_pos hq]
  have hfl : (0 : ℤ) ≤ ⌊(hours * 3600 : ℚ) / (step_seconds : ℚ)⌋ :=
    Int.floor_nonneg.mpr hq
  have hkey : ((⌊(hours * 3600 : ℚ) / (step_seconds : ℚ)⌋.toNat : ℕ) : ℚ) ≤
      (hours * 3600 : ℚ) / (step_seconds : ℚ) := by
    have h2 : ((⌊(hours * 3600 : ℚ) / (step_seconds : ℚ)⌋.toNat : ℤ) : ℚ) ≤
        (hours * 3600 : ℚ) / (step_seconds : ℚ) := by
      rw [Int.toNat_of_nonneg hfl]
      exact Int.floor_le _
    exact_mod_cast h2
  calc (step_seconds : ℚ) *
        ((⌊(hours * 3600 : ℚ) / (step_seconds : ℚ)⌋.toNat : ℕ) : ℚ)
      ≤ (step_seconds : ℚ) * ((hours * 3600 : ℚ) / (step_seconds : ℚ)) :=
        mul_le_mul_of_nonneg_left hkey (le_of_lt hsq)
    _ = (hours : ℚ) * 3600 := by
        rw [mul_comm, div_mul_cancel₀ _ (ne_of_gt hsq)]

theorem cityNumSteps_zero_of_neg (hours step_seconds : ℤ) (hh : 0 < hours)
    (hs : step_seconds < 0) : cityNumSteps hours step_seconds = 0 := by
  have hsq : (step_seconds : ℚ) < 0 := by exact_mod_cast hs
  have hhq : (0 : ℚ) < (hours * 3600 : ℚ) := by
    have : (0 : ℚ) < (hours : ℚ) := by exact_mod_cast hh
    nlinarith
  have hq : (hours * 3600 : ℚ) / (step_seconds : ℚ) < 0 :=
    div_neg_of_pos_of_neg hhq hsq
  unfold cityNumSteps ratTrunc
  rw [if_neg (not_le.mpr hq)]
  refine Int.toNat_of_nonpos (Int.ceil_le.mpr ?_)
  push_cast
  exact le_of_lt hq

theorem cityNumSteps_zero_of_hours_zero (step_seconds : ℤ) :
    cityNumSteps 0 step_seconds = 0 := by
  unfold cityNumSteps ratTrunc
  norm_num

/-! ## Membership facts for the sorted city windows -/

theorem cityWindows_mem (satellites : List Satellite)
    (propEl : Satellite → ℕ → Option ℚ) (now : ℚ) (hours step_seconds : ℤ)
    (min_elevation_deg : ℚ) (w : CoverageWindow)
    (hw : w ∈ cityWindows satellites propEl now hours step_seconds
      min_elevation_deg) :
    ∃ sat ∈ satellites, w.satellite_name = sat.name ∧
      ∃ j, j < cityNumSteps hours step_seconds ∧
        ∃ e, propEl sat j = some e ∧ e < min_elevation_deg ∧
          w.end_time = now + (step_seconds : ℚ) * (j : ℚ) := by
  unfold cityWindows at hw
  rw [(List.perm_insertionSort startLE _).mem_iff] at hw
  obtain ⟨sat, hsat, hw2⟩ := List.mem_flatMap.mp hw
  rw [covScanSat_eq_threshold] at hw2
  obtain ⟨w', hw', rfl⟩ := List.mem_map.mp hw2
  obtain ⟨s, hs, hstop, e, hse, hlt⟩ := thresholdRun_mem _ _ _ w' hw'
  obtain ⟨j, hj, rfl⟩ := mem_samples hs
  refine ⟨sat, hsat, rfl, j, hj, e, ?_, hlt, hstop⟩
  simpa using hse

/-- With a positive horizon and step, every window closes strictly before the
horizon end, so the final gap entry is positive and the gap list nonempty. -/
theorem gapsOf_cityWindows_ne_nil (satellites : List Satellite)
    (propEl : Satellite → ℕ → Option ℚ) (now : ℚ) (hours step_seconds : ℤ)
    (min_elevation_deg : ℚ) (hh : 0 < hours) (hs : 0 < step_seconds) :
    gapsOf (cityWindows satellites propEl now hours step_seconds
      min_elevation_deg) now ((hours : ℚ) * 3600) ≠ [] := by
  cases hcw : cityWindows satellites propEl now hours step_seconds
      min_elevation_deg with
  | nil => simp [gapsOf]
  | cons w0 rest =>
    have hlastmem : (w0 :: rest).getLast (by simp) ∈
        cityWindows satellites propEl now hours step_seconds min_elevation_deg := by
      rw [hcw]
      exact List.getLast_mem _
    obtain ⟨sat, _, _, j, hj, e, _, _, hend⟩ :=
      cityWindows_mem satellites propEl now hours step_seconds min_elevation_deg
        _ hlastmem
    have hsq : (0 : ℚ) < (step_seconds : ℚ) := by exact_mod_cast hs
    have hjq : (j : ℚ) + 1 ≤ (cityNumSteps hours step_seconds : ℚ) := by
      exact_mod_cast Nat.succ_le_of_lt hj
    have hbound := cityNumSteps_mul_le hours step_seconds hh hs
    have hgap : 0 < (now + (hours : ℚ) * 3600) -
        ((w0 :: rest).getLast (by simp)).end_time := by
      rw [hend]
      nlinarith
    have hmem : (now + (hours : ℚ) * 3600) -
        ((w0 :: rest).getLast (by simp)).end_time ∈
        gapsOf (w0 :: rest) now ((hours : ℚ) * 3600) := by
      rw [show gapsOf (w0 :: rest) now ((hours : ℚ) * 3600) =
        (if 0 < w0.start_time - now then [w0.start_time - now] else []) ++
          consecGaps (w0 :: rest) ++
          (if 0 < (now + (hours : ℚ) * 3600) -
              ((w0 :: rest).getLast (by simp)).end_time then
            [(now + (hours : ℚ) * 3600) -
              ((w0 :: rest).getLast (by simp)).end_time] else [])
        from rfl]
      rw [if_pos hgap]
      exact List.mem_append_right _ (List.mem_singleton.mpr rfl)
    exact List.ne_nil_of_mem hmem

/-! ## Footprint geometry lemmas -/

theorem WGS84_A_pos : (0 : ℝ) < WGS84_A := by norm_num [WGS84_A]

/-- `arccos` is antitone on all of ℝ. -/
theorem arccos_anti {x y : ℝ} (h : x ≤ y) : Real.arccos y ≤ Real.arccos x := by
  rw [Real.arccos_eq_pi_div_two_sub_arcsin, Real.arccos_eq_pi_div_two_sub_arcsin]
  have := Real.monotone_arcsin h
  linarith

theorem radians_mem (d : ℝ) (h0 : 0 ≤ d) (h90 : d ≤ 90) :
    0 ≤ radians d ∧ radians d ≤ Real.pi / 2 := by
  have hpi := Real.pi_pos
  unfold radians
  constructor
  · positivity
  · nlinarith

theorem radians_mono {d1 d2 : ℝ} (h : d1 ≤ d2) : radians d1 ≤ radians d2 := by
  have hpi := Real.pi_pos
  unfold radians
  have : d1 * Real.pi ≤ d2 * Real.pi := mul_le_mul_of_nonneg_right h (le_of_lt hpi)
  linarith

/-- The key analytic fact behind the min-elevation monotonicity: for
`0 ≤ k ≤ 1` the function `θ ↦ arccos (k cos θ) − θ` is antitone on
`[0, π/2]`. -/
theorem arccos_mul_cos_sub_anti {k t1 t2 : ℝ} (hk0 : 0 ≤ k) (hk1 : k ≤ 1)
    (h0 : 0 ≤ t1) (h12 : t1 ≤ t2) (h2 : t2 ≤ Real.pi / 2) :
    Real.arccos (k * Real.cos t2) - t2 ≤ Real.arccos (k * Real.cos t1) - t1 := by
  have hpi := Real.pi_pos
  have ht1pi2 : t1 ≤ Real.pi / 2 := le_trans h12 h2
  have hcos1_nonneg : 0 ≤ Real.cos t1 :=
    Real.cos_nonneg_of_mem_Icc ⟨by linarith, ht1pi2⟩
  have hcos2_nonneg : 0 ≤ Real.cos t2 :=
    Real.cos_nonneg_of_mem_Icc ⟨by linarith, h2⟩
  have hcos_le : Real.cos t2 ≤ Real.cos t1 :=
    Real.cos_le_cos_of_nonneg_of_le_pi h0 (by linarith) h12
  have hcos1_le1 : Real.cos t1 ≤ 1 := Real.cos_le_one t1
  have hcos2_le1 : Real.cos t2 ≤ 1 := Real.cos_le_one t2
  have harg1_mem : 0 ≤ k * Real.cos t1 := mul_nonneg hk0 hcos1_nonneg
  have harg2_mem : 0 ≤ k * Real.cos t2 := mul_nonneg hk0 hcos2_nonneg
  have harg1_le1 : k * Real.cos t1 ≤ 1 := by nlinarith
  have harg2_le1 : k * Real.cos t2 ≤ 1 := by nlinarith
  have hargs : k * Real.cos t2 ≤ k * Real.cos t1 :=
    mul_le_mul_of_nonneg_left hcos_le hk0
  set p1 := Real.arccos (k * Real.cos t1) with hp1
  set p2 := Real.arccos (k * Real.cos t2) with hp2
  have hp1_nonneg : 0 ≤ p1 := Real.arccos_nonneg _
  have hp2_nonneg : 0 ≤ p2 := Real.arccos_nonneg _
  have hp12 : p1 ≤ p2 := arccos_anti hargs
  have hp2_le : p2 ≤ Real.pi / 2 := by
    rw [hp2, Real.arccos_le_pi_div_two]
    exact harg2_mem
  have hcosp1 : Real.cos p1 = k * Real.cos t1 :=
    Real.cos_arccos (by linarith) harg1_le1
  have hcosp2 : Real.cos p2 = k * Real.cos t2 :=
    Real.cos_arccos (by linarith) harg2_le1
  have hsinp1 : Real.sin p1 = Real.sqrt (1 - (k * Real.cos t1) ^ 2) := by
    rw [hp1, Real.sin_arccos]
  have hsin_ge : k * Real.sin t1 ≤ Real.sin p1 := by
    rw [hsinp1]
    have hsin1_nonneg : 0 ≤ Real.sin t1 :=
      Real.sin_nonneg_of_nonneg_of_le_pi h0 (by linarith)
    have h1 : (k * Real.sin t1) ^ 2 ≤ 1 - (k * Real.cos t1) ^ 2 := by
      have hpyth := Real.sin_sq_add_cos_sq t1
      have hk2 : k ^ 2 ≤ 1 := by nlinarith
      nlinarith [sq_nonneg (Real.sin t1), sq_nonneg (Real.cos t1)]
    calc k * Real.sin t1 = Real.sqrt ((k * Real.sin t1) ^ 2) := by
          rw [Real.sqrt_sq (mul_nonneg hk0 hsin1_nonneg)]
      _ ≤ Real.sqrt (1 - (k * Real.cos t1) ^ 2) := Real.sqrt_le_sqrt h1
  have hkey : k * Real.cos (t1 + (p2 - p1)) - k * Real.cos t2 =
      Real.sin (p2 - p1) * (Real.sin p1 - k * Real.sin t1) := by
    have hc2 : Real.cos p2 = Real.cos (p1 + (p2 - p1)) := by ring_nf
    rw [Real.cos_add] at hc2
    have hc3 : Real.cos (t1 + (p2 - p1)) =
        Real.cos t1 * Real.cos (p2 - p1) - Real.sin t1 * Real.sin (p2 - p1) :=
      Real.cos_add t1 (p2 - p1)
    have hc4 : k * Real.cos t2 =
        k * Real.cos t1 * Real.cos (p2 - p1) -
          Real.sin p1 * Real.sin (p2 - p1) := by
      rw [← hcosp1, ← hcosp2, hc2]
    rw [hc3, hc4]
    ring
  have hsinD_nonneg : 0 ≤ Real.sin (p2 - p1) :=
    Real.sin_nonneg_of_nonneg_of_le_pi (by linarith) (by linarith)
  have hprod : 0 ≤ k * Real.cos (t1 + (p2 - p1)) - k * Real.cos t2 := by
    rw [hkey]
    exact mul_nonneg hsinD_nonneg (by linarith)
  rcases eq_or_lt_of_le hk0 with hk | hk
  · have : p1 = p2 := by rw [hp1, hp2, ← hk]; norm_num
    linarith
  · have hcos_ge2 : Real.cos t2 ≤ Real.cos (t1 + (p2 - p1)) := by nlinarith
    have hsum_le : t1 + (p2 - p1) ≤ t2 := by
      by_contra hcon
      push_neg at hcon
      have : Real.cos (t1 + (p2 - p1)) < Real.cos t2 :=
        Real.cos_lt_cos_of_nonneg_of_le_pi (by linarith) (by linarith) hcon
      linarith
    linarith

theorem footprint_nonneg (altitude_km min_elevation_deg : ℝ)
    (halt : 0 ≤ altitude_km) (h0 : 0 ≤ min_elevation_deg)
    (h90 : min_elevation_deg ≤ 90) :
    0 ≤ footprint_radius_km altitude_km min_elevation_deg := by
  have hA := WGS84_A_pos
  have hpi := Real.pi_pos
  obtain ⟨hth0, hth2⟩ := radians_mem min_elevation_deg h0 h90
  unfold footprint_radius_km
  by_cases hcv : 1 ≤ WGS84_A * Real.cos (radians min_elevation_deg) /
      (WGS84_A + altitude_km)
  · rw [if_pos hcv]
  · rw [if_neg hcv]
    have hcos_nonneg : 0 ≤ Real.cos (radians min_elevation_deg) :=
      Real.cos_nonneg_of_mem_Icc ⟨by linarith, hth2⟩
    have hden : 0 < WGS84_A + altitude_km := by linarith
    have hcv_le : WGS84_A * Real.cos (radians min_elevation_deg) /
        (WGS84_A + altitude_km) ≤ Real.cos (radians min_elevation_deg) := by
      rw [div_le_iff₀ hden]
      nlinarith
    have harc : radians min_elevation_deg ≤
        Real.arccos (WGS84_A * Real.cos (radians min_elevation_deg) /
          (WGS84_A + altitude_km)) := by
      have h1 := arccos_anti hcv_le
      rwa [Real.arccos_cos hth0 (by linarith)] at h1
    have : 0 ≤ Real.arccos (WGS84_A * Real.cos (radians min_elevation_deg) /
        (WGS84_A + altitude_km)) - radians min_elevation_deg := by linarith
    positivity

theorem footprint_mono_alt (min_elevation_deg a1 a2 : ℝ)
    (h0 : 0 ≤ min_elevation_deg) (h90 : min_elevation_deg ≤ 90)
    (ha1 : 0 ≤ a1) (ha12 : a1 ≤ a2) :
    footprint_radius_km a1 min_elevation_deg ≤
      footprint_radius_km a2 min_elevation_deg := by
  have hA := WGS84_A_pos
  obtain ⟨hth0, hth2⟩ := radians_mem min_elevation_deg h0 h90
  have hpi := Real.pi_pos
  have hcos_nonneg : 0 ≤ Real.cos (radians min_elevation_deg) :=
    Real.cos_nonneg_of_mem_Icc ⟨by linarith, hth2⟩
  have hden1 : 0 < WGS84_A + a1 := by linarith
  have hden2 : 0 < WGS84_A + a2 := by linarith
  have hcv21 : WGS84_A * Real.cos (radians min_elevation_deg) / (WGS84_A + a2) ≤
      WGS84_A * Real.cos (radians min_elevation_deg) / (WGS84_A + a1) := by
    apply div_le_div_of_nonneg_left _ hden1 (by linarith)
    positivity
  by_cases hcv1 : 1 ≤ WGS84_A * Real.cos (radians min_elevation_deg) /
      (WGS84_A + a1)
  · rw [show footprint_radius_km a1 min_elevation_deg = 0 by
      unfold footprint_radius_km; rw [if_pos hcv1]]
    exact footprint_nonneg a2 min_elevation_deg (le_trans ha1 ha12) h0 h90
  · have hcv2 : ¬ 1 ≤ WGS84_A * Real.cos (radians min_elevation_deg) /
        (WGS84_A + a2) := by
      push_neg at hcv1 ⊢
      exact lt_of_le_of_lt hcv21 hcv1
    unfold footprint_radius_km
    rw [if_neg hcv1, if_neg hcv2]
    have harc := arccos_anti hcv21
    nlinarith

theorem footprint_anti_elev (altitude_km d1 d2 : ℝ) (halt : 0 ≤ altitude_km)
    (h0 : 0 ≤ d1) (h12 : d1 ≤ d2) (h90 : d2 ≤ 90) :
    footprint_radius_km altitude_km d2 ≤ footprint_radius_km altitude_km d1 := by
  have hA := WGS84_A_pos
  have hpi := Real.pi_pos
  obtain ⟨hth10, hth12⟩ := radians_mem d1 h0 (le_trans h12 h90)
  obtain ⟨hth20, hth22⟩ := radians_mem d2 (le_trans h0 h12) h90
  have hthmono : radians d1 ≤ radians d2 := radians_mono h12
  have hden : 0 < WGS84_A + altitude_km := by linarith
  set k : ℝ := WGS84_A / (WGS84_A + altitude_km) with hkdef
  have hk0 : 0 ≤ k := by positivity
  have hk1 : k ≤ 1 := by
    rw [hkdef, div_le_one hden]
    linarith
  have hrw1 : WGS84_A * Real.cos (radians d1) / (WGS84_A + altitude_km) =
      k * Real.cos (radians d1) := by
    rw [hkdef, div_mul_eq_mul_div]
  have hrw2 : WGS84_A * Real.cos (radians d2) / (WGS84_A + altitude_km) =
      k * Real.cos (radians d2) := by
    rw [hkdef, div_mul_eq_mul_div]
  have hcos1_nonneg : 0 ≤ Real.cos (radians d1) :=
    Real.cos_nonneg_of_mem_Icc ⟨by linarith, hth12⟩
  have hcos2_nonneg : 0 ≤ Real.cos (radians d2) :=
    Real.cos_nonneg_of_mem_Icc ⟨by linarith, hth22⟩
  have hcos_le : Real.cos (radians d2) ≤ Real.cos (radians d1) :=
    Real.cos_le_cos_of_nonneg_of_le_pi hth10 (by linarith) hthmono
  by_cases hcv1 : 1 ≤ WGS84_A * Real.cos (radians d1) / (WGS84_A + altitude_km)
  · have hk_eq : k = 1 := by
      rw [hrw1] at hcv1
      have hc1le := Real.cos_le_one (radians d1)
      have h1 : k * Real.cos (radians d1) ≤ k := by nlinarith
      linarith
    rw [show footprint_radius_km altitude_km d1 = 0 by
      unfold footprint_radius_km; rw [if_pos hcv1]]
    by_cases hcv2 : 1 ≤ WGS84_A * Real.cos (radians d2) / (WGS84_A + altitude_km)
    · rw [show footprint_radius_km altitude_km d2 = 0 by
        unfold footprint_radius_km; rw [if_pos hcv2]]
    · unfold footprint_radius_km
      rw [if_neg hcv2, hrw2, hk_eq, one_mul,
        Real.arccos_cos hth20 (by linarith)]
      simp
  · have hcv2 : ¬ 1 ≤ WGS84_A * Real.cos (radians d2) /
        (WGS84_A + altitude_km) := by
      push_neg at hcv1 ⊢
      rw [hrw1] at hcv1
      rw [hrw2]
      calc k * Real.cos (radians d2) ≤ k * Real.cos (radians d1) :=
            mul_le_mul_of_nonneg_left hcos_le hk0
        _ < 1 := hcv1
    unfold footprint_radius_km
    rw [if_neg hcv1, if_neg hcv2, hrw1, hrw2]
    have hkey := arccos_mul_cos_sub_anti hk0 hk1 hth10 hthmono hth22
    nlinarith

/-! ## Unfolding `compute_city_coverage` -/

theorem cityReport_windows (satellites : List Satellite)
    (propEl : Satellite → ℕ → Option ℚ) (now : ℚ) (city_name : String)
    (city_lat city_lon : ℚ) (hours step_seconds : ℤ) (min_elevation_deg : ℚ) :
    (cityReport satellites propEl now city_name city_lat city_lon hours
      step_seconds min_elevation_deg).windows =
      cityWindows satellites propEl now hours step_seconds min_elevation_deg := rfl

theorem compute_city_coverage_ok (satellites : List Satellite)
    (propEl : Satellite → ℕ → Option ℚ) (now : ℚ) (city_name : String)
    (city_lat city_lon : ℚ) (hours step_seconds : ℤ) (min_elevation_deg : ℚ)
    (hs : step_seconds ≠ 0) (hh : hours ≠ 0) :
    compute_city_coverage satellites propEl now city_name city_lat city_lon
      hours step_seconds min_elevation_deg =
      .ok (cityReport satellites propEl now city_name city_lat city_lon hours
        step_seconds min_elevation_deg) := by
  unfold compute_city_coverage
  rw [if_neg hs, if_neg ?hns]
  case hns =>
    intro hc
    apply hh
    have h36 : (3600 : ℚ) ≠ 0 := by norm_num
    have : (hours : ℚ) = 0 := by
      rcases mul_eq_zero.mp hc with h | h
      · exact h
      · exact absurd h h36
    exact_mod_cast this

theorem compute_city_coverage_eq_ok {satellites : List Satellite}
    {propEl : Satellite → ℕ → Option ℚ} {now : ℚ} {city_name : String}
    {city_lat city_lon : ℚ} {hours step_seconds : ℤ} {min_elevation_deg : ℚ}
    {r : CityCoverageReport}
    (h : compute_city_coverage satellites propEl now city_name city_lat city_lon
      hours step_seconds min_elevation_deg = .ok r) :
    r = cityReport satellites propEl now city_name city_lat city_lon hours
      step_seconds min_elevation_deg := by
  unfold compute_city_coverage at h
  by_cases h1 : step_seconds = 0
  · rw [if_pos h1] at h
    exact absurd h (by simp)
  · rw [if_neg h1] at h
    by_cases h2 : (hours : ℚ) * 3600 = 0
    · rw [if_pos h2] at h
      exact absurd h (by simp)
    · rw [if_neg h2] at h
      injection h with h
      exact h.symm

/-! ## Claim theorems -/

/-- C3: a pass/window still open when the scan horizon ends is never emitted:
every emitted `PassPrediction` of `predict_passes` closes at a scan step
strictly inside the horizon where the propagated elevation fell to `≤ 0`, and
every emitted `CoverageWindow` of `compute_city_coverage` closes at a scan
step inside the horizon where the elevation fell below `min_elevation_deg`. -/
theorem C3_open_windows_dropped :
    (∀ (sat : Satellite) (propEl : ℕ → Option ℚ) (now : ℚ) (hours : ℤ)
      (min_el : ℚ), ∀ p ∈ predict_passes sat propEl now hours min_el,
      ∃ j, j < (120 * hours).toNat ∧ ∃ e, propEl j = some e ∧ e ≤ 0 ∧
        p.set_time = now + 30 * (j : ℚ)) ∧
    (∀ (satellites : List Satellite) (propEl : Satellite → ℕ → Option ℚ)
      (now : ℚ) (city_name : String) (city_lat city_lon : ℚ)
      (hours step_seconds : ℤ) (min_elevation_deg : ℚ) (r : CityCoverageReport),
      compute_city_coverage satellites propEl now city_name city_lat city_lon
        hours step_seconds min_elevation_deg = .ok r →
      ∀ w ∈ r.windows, ∃ sat ∈ satellites, w.satellite_name = sat.name ∧
        ∃ j, j < cityNumSteps hours step_seconds ∧
          ∃ e, propEl sat j = some e ∧ e < min_elevation_deg ∧
            w.end_time = now + (step_seconds : ℚ) * (j : ℚ)) := by
  constructor
  · intro sat propEl now hours min_el p hp
    rw [predict_passes_eq_spec44] at hp
    obtain ⟨w, hw, rfl⟩ := List.mem_map.mp hp
    have hpw := samples_pairwise now 30 (by norm_num) (120 * hours).toNat propEl
    obtain ⟨_, _, _, s, hs, hset, e, hse, hle⟩ :=
      spec44Run_mem min_el _ hpw .belowHorizon (by rintro r m mt ⟨⟩) w hw
    obtain ⟨j, hj, rfl⟩ := mem_samples hs
    exact ⟨j, hj, e, by simpa using hse, hle, hset⟩
  · intro satellites propEl now city_name city_lat city_lon hours step_seconds
      min_elevation_deg r hr w hw
    rw [compute_city_coverage_eq_ok hr, cityReport_windows] at hw
    exact cityWindows_mem satellites propEl now hours step_seconds
      min_elevation_deg w hw

/-- C4: a failed propagation step is skipped without any state change — the
step functions of all three scans leave the state untouched on `none`, a
`none` sample can be deleted from any scan position without changing the
fold, and each full operation equals its own scan restricted to the
successful samples (so one failure affects only that one sample). -/
theorem C4_propagation_failure_skipped :
    (∀ (sat : Satellite) (min_el : ℚ) (st : PassState) (t : ℚ),
      passStep sat min_el st (t, none) = st) ∧
    (∀ (sat : Satellite) (min_el : ℚ) (st : CovState) (t : ℚ),
      covStep sat min_el st (t, none) = st) ∧
    (∀ (pts : List GroundTrackPoint) (t : ℚ), trackStep pts (t, none) = pts) ∧
    (∀ (sat : Satellite) (min_el : ℚ) (st : PassState) (xs ys : List Sample)
      (t : ℚ), List.foldl (passStep sat min_el) st (xs ++ (t, none) :: ys) =
        List.foldl (passStep sat min_el) st (xs ++ ys)) ∧
    (∀ (sat : Satellite) (min_el : ℚ) (st : CovState) (xs ys : List Sample)
      (t : ℚ), List.foldl (covStep sat min_el) st (xs ++ (t, none) :: ys) =
        List.foldl (covStep sat min_el) st (xs ++ ys)) ∧
    (∀ (pts : List GroundTrackPoint) (xs ys : List (ℚ × Option (ℚ × ℚ × ℚ)))
      (t : ℚ), List.foldl trackStep pts (xs ++ (t, none) :: ys) =
        List.foldl trackStep pts (xs ++ ys)) ∧
    (∀ (sat : Satellite) (propEl : ℕ → Option ℚ) (now : ℚ) (hours : ℤ)
      (min_el : ℚ), predict_passes sat propEl now hours min_el =
      (List.foldl (passStep sat min_el) ⟨.below, []⟩
        ((samples now 30 (120 * hours).toNat propEl).filter
          (fun s => s.2.isSome))).passes) ∧
    (∀ (sat : Satellite) (propEl : ℕ → Option ℚ) (now step : ℚ) (steps : ℕ)
      (min_el : ℚ), covScanSat sat propEl now step steps min_el =
      (List.foldl (covStep sat min_el) ⟨.out, []⟩
        ((samples now step steps propEl).filter
          (fun s => s.2.isSome))).windows) ∧
    (∀ (satellites : List Satellite) (propGeo : Satellite → ℕ → Option (ℚ × ℚ × ℚ))
      (now : ℚ) (hours step_seconds : ℤ), step_seconds ≠ 0 →
      compute_ground_tracks satellites propGeo now hours step_seconds =
        .ok (satellites.map (fun sat => (sat.name, List.foldl trackStep []
          ((trackSamples now (step_seconds : ℚ) (cityNumSteps hours step_seconds)
            (propGeo sat)).filter (fun s => s.2.isSome)))))) := by
  refine ⟨fun _ _ _ _ => rfl, fun _ _ _ _ => rfl, fun _ _ => rfl, ?_, ?_, ?_,
    ?_, ?_, ?_⟩
  · intro sat min_el st xs ys t
    rw [List.foldl_append, List.foldl_append, List.foldl_cons]
    rfl
  · intro sat min_el st xs ys t
    rw [List.foldl_append, List.foldl_append, List.foldl_cons]
    rfl
  · intro pts xs ys t
    rw [List.foldl_append, List.foldl_append, List.foldl_cons]
    rfl
  · intro sat propEl now hours min_el
    unfold predict_passes
    rw [foldl_filter_isSome (passStep sat min_el) (fun _ _ => rfl)]
  · intro sat propEl now step steps min_el
    unfold covScanSat
    rw [foldl_filter_isSome (covStep sat min_el) (fun _ _ => rfl)]
  · intro satellites propGeo now hours step_seconds hs
    unfold compute_ground_tracks
    rw [if_neg hs]
    congr 1
    exact congrArg (fun f => List.map f satellites)
      (funext fun sat => congrArg (fun l => (sat.name, l))
        (foldl_filter_isSome trackStep (fun _ _ => rfl) _ _))

/-- C4 witness: the no-op on a concrete failed sample, and a concrete
`compute_ground_tracks` call (no satellites, all-failing oracle, 60 s step)
reduced to its successful-samples scan. -/
theorem C4_witness :
    passStep ⟨"SAT-A", 25544⟩ 10 ⟨.below, []⟩ (0, none) = ⟨.below, []⟩ ∧
    compute_ground_tracks [] (fun _ _ => none) 0 24 60 =
      .ok (([] : List Satellite).map (fun sat => (sat.name, List.foldl trackStep []
        ((trackSamples 0 (60 : ℚ) (cityNumSteps 24 60) ((fun _ _ => none) sat)).filter
          (fun s => s.2.isSome))))) :=
  ⟨C4_propagation_failure_skipped.1 ⟨"SAT-A", 25544⟩ 10 ⟨.below, []⟩ 0,
   C4_propagation_failure_skipped.2.2.2.2.2.2.2.2 [] (fun _ _ => none) 0 24 60
     (by norm_num)⟩

/-- C7: the footprint radius is monotone increasing in altitude (for any
fixed minimum elevation in the physical range `[0°, 90°]`), monotone
decreasing in the minimum elevation (for any fixed nonnegative altitude),
returns exactly 0 when `R·cos θ/(R+alt) ≥ 1`, and otherwise equals
`R · (arccos (R·cos θ/(R+alt)) − θ)`. -/
theorem C7_footprint_radius_props :
    (∀ (min_elevation_deg a1 a2 : ℝ), 0 ≤ min_elevation_deg →
      min_elevation_deg ≤ 90 → 0 ≤ a1 → a1 ≤ a2 →
      footprint_radius_km a1 min_elevation_deg ≤
        footprint_radius_km a2 min_elevation_deg) ∧
    (∀ (altitude_km d1 d2 : ℝ), 0 ≤ altitude_km → 0 ≤ d1 → d1 ≤ d2 → d2 ≤ 90 →
      footprint_radius_km altitude_km d2 ≤ footprint_radius_km altitude_km d1) ∧
    (∀ (altitude_km min_elevation_deg : ℝ),
      1 ≤ WGS84_A * Real.cos (radians min_elevation_deg) /
        (WGS84_A + altitude_km) →
      footprint_radius_km altitude_km min_elevation_deg = 0) ∧
    (∀ (altitude_km min_elevation_deg : ℝ),
      ¬ 1 ≤ WGS84_A * Real.cos (radians min_elevation_deg) /
        (WGS84_A + altitude_km) →
      footprint_radius_km altitude_km min_elevation_deg =
        WGS84_A * (Real.arccos (WGS84_A * Real.cos (radians min_elevation_deg) /
          (WGS84_A + altitude_km)) - radians min_elevation_deg)) := by
  refine ⟨?_, ?_, ?_, ?_⟩
  · intro d a1 a2 h0 h90 ha1 ha12
    exact footprint_mono_alt d a1 a2 h0 h90 ha1 ha12
  · intro alt d1 d2 halt h0 h12 h90
    exact footprint_anti_elev alt d1 d2 halt h0 h12 h90
  · intro alt d h
    unfold footprint_radius_km
    rw [if_pos h]
  · intro alt d h
    unfold footprint_radius_km
    rw [if_neg h]

/-- C7 witness: both monotonicity directions at concrete inputs
(400 km vs 500 km at 10°, and 10° vs 20° at 400 km). -/
theorem C7_witness :
    footprint_radius_km 400 10 ≤ footprint_radius_km 500 10 ∧
    footprint_radius_km 400 20 ≤ footprint_radius_km 400 10 :=
  ⟨C7_footprint_radius_props.1 10 400 500 (by norm_num) (by norm_num)
      (by norm_num) (by norm_num),
   C7_footprint_radius_props.2.1 400 10 20 (by norm_num) (by norm_num)
      (by norm_num) (by norm_num)⟩

/-- C8: the geometric degeneracy guards are total fallbacks, not errors —
`_elevation_from_observer` returns `90.0` whenever the topocentric range is
below `1e-10` km, and `_ecef_to_geodetic` computes the altitude as
`|z| − semi_minor_axis` whenever `|cos lat| ≤ 1e-10`; both embedded
functions are total on all real inputs. -/
theorem C8_degeneracy_fallbacks :
    (∀ (obs_lat obs_lon obs_alt_km : ℝ) (sat_ecef : ℝ × ℝ × ℝ),
      rangeKm obs_lat obs_lon obs_alt_km sat_ecef < tinyEps →
      elevation_from_observer obs_lat obs_lon obs_alt_km sat_ecef = 90) ∧
    (∀ (x y z : ℝ), |Real.cos (geodeticLat x y z)| ≤ tinyEps →
      (ecef_to_geodetic x y z).2.2 = |z| - WGS84_B) := by
  constructor
  · intro obs_lat obs_lon obs_alt_km sat_ecef h
    unfold elevation_from_observer
    rw [if_pos h]
  · intro x y z h
    simp only [ecef_to_geodetic]
    rw [if_neg (not_lt.mpr h)]

/-- C10: the list returned by `predict_passes` is chronological and pairwise
disjoint: rise times are strictly increasing and each prediction's set time
is at most (in fact strictly before) every later prediction's rise time. -/
theorem C10_predict_passes_chronological (sat : Satellite)
    (propEl : ℕ → Option ℚ) (now : ℚ) (hours : ℤ) (min_el : ℚ) :
    (predict_passes sat propEl now hours min_el).Pairwise
      (fun p q => p.rise_time < q.rise_time ∧ p.set_time ≤ q.rise_time) := by
  rw [predict_passes_eq_spec44]
  rw [List.pairwise_map]
  exact spec44Run_pairwise min_el _
    (samples_pairwise now 30 (by norm_num) (120 * hours).toNat propEl)
    .belowHorizon (by rintro r m mt ⟨⟩)

theorem WGS84_B_pos : (0 : ℝ) < WGS84_B := by
  norm_num [WGS84_B, WGS84_A, WGS84_F]

theorem WGS84_B_lt_A : WGS84_B < WGS84_A := by
  norm_num [WGS84_B, WGS84_A, WGS84_F]

/-- A coincident observer/target pair has zero topocentric range. -/
theorem demo_range_zero : rangeKm 0 0 0 (geodetic_to_ecef 0 0 0) = 0 := by
  simp [rangeKm, sezVec]

/-- The auxiliary angle of Bowring's method at the pole point `(0,0,1)`. -/
theorem demo_theta : geodeticTheta 0 0 1 = Real.pi / 2 := by
  unfold geodeticTheta
  have h1 : Real.sqrt ((0:ℝ) ^ 2 + 0 ^ 2) = 0 := by norm_num
  rw [h1]
  rw [show (0:ℝ) * WGS84_B = 0 by ring, show (1:ℝ) * WGS84_A = WGS84_A by ring]
  unfold atan2
  rw [if_neg (by norm_num), if_neg (by norm_num), if_pos WGS84_A_pos]

/-- Bowring's latitude at the pole point `(0,0,1)` is exactly `π/2`. -/
theorem demo_lat : geodeticLat 0 0 1 = Real.pi / 2 := by
  unfold geodeticLat
  rw [demo_theta]
  have h1 : Real.sqrt ((0:ℝ) ^ 2 + 0 ^ 2) = 0 := by norm_num
  rw [h1, Real.sin_pi_div_two, Real.cos_pi_div_two]
  have harg1 : (1:ℝ) + (WGS84_A ^ 2 - WGS84_B ^ 2) / WGS84_B * 1 ^ 3 > 0 := by
    have hB := WGS84_B_pos
    have hBA := WGS84_B_lt_A
    have h2 : (0:ℝ) ≤ (WGS84_A ^ 2 - WGS84_B ^ 2) / WGS84_B := by
      apply div_nonneg _ (le_of_lt hB)
      nlinarith
    nlinarith
  have harg2 : (0:ℝ) - WGS84_E2 * WGS84_A * 0 ^ 3 = 0 := by ring
  rw [harg2]
  unfold atan2
  rw [if_neg (by norm_num), if_neg (by norm_num), if_pos (by simpa using harg1)]

/-- C8 witness: a coincident observer/target pair triggers the 90° range
fallback, and the pole point `(0,0,1)` triggers the polar altitude
fallback. -/
theorem C8_witness :
    (rangeKm 0 0 0 (geodetic_to_ecef 0 0 0) < tinyEps ∧
      elevation_from_observer 0 0 0 (geodetic_to_ecef 0 0 0) = 90) ∧
    (|Real.cos (geodeticLat 0 0 1)| ≤ tinyEps ∧
      (ecef_to_geodetic 0 0 1).2.2 = |(1:ℝ)| - WGS84_B) := by
  have hr : rangeKm 0 0 0 (geodetic_to_ecef 0 0 0) < tinyEps := by
    rw [demo_range_zero]
    norm_num [tinyEps]
  have hl : |Real.cos (geodeticLat 0 0 1)| ≤ tinyEps := by
    rw [demo_lat, Real.cos_pi_div_two]
    norm_num [tinyEps]
  exact ⟨⟨hr, C8_degeneracy_fallbacks.1 0 0 0 _ hr⟩,
    ⟨hl, C8_degeneracy_fallbacks.2 0 0 1 hl⟩⟩

/-! ## Report field unfoldings -/

theorem cityReport_pct (satellites : List Satellite)
    (propEl : Satellite → ℕ → Option ℚ) (now : ℚ) (city_name : String)
    (city_lat city_lon : ℚ) (hours step_seconds : ℤ) (min_elevation_deg : ℚ) :
    (cityReport satellites propEl now city_name city_lat city_lon hours
      step_seconds min_elevation_deg).coverage_percentage =
      roundTo 2 (((cityWindows satellites propEl now hours step_seconds
        min_elevation_deg).map (fun w => w.duration_seconds)).sum /
          ((hours : ℚ) * 3600) * 100) := rfl

theorem cityReport_num_passes (satellites : List Satellite)
    (propEl : Satellite → ℕ → Option ℚ) (now : ℚ) (city_name : String)
    (city_lat city_lon : ℚ) (hours step_seconds : ℤ) (min_elevation_deg : ℚ) :
    (cityReport satellites propEl now city_name city_lat city_lon hours
      step_seconds min_elevation_deg).num_passes =
      (cityWindows satellites propEl now hours step_seconds
        min_elevation_deg).length := rfl

theorem cityReport_avg_gap (satellites : List Satellite)
    (propEl : Satellite → ℕ → Option ℚ) (now : ℚ) (city_name : String)
    (city_lat city_lon : ℚ) (hours step_seconds : ℤ) (min_elevation_deg : ℚ) :
    (cityReport satellites propEl now city_name city_lat city_lon hours
      step_seconds min_elevation_deg).avg_gap_minutes =
      roundTo 1
        (if (gapsOf (cityWindows satellites propEl now hours step_seconds
            min_elevation_deg) now ((hours : ℚ) * 3600)).isEmpty then 0
         else (gapsOf (cityWindows satellites propEl now hours step_seconds
            min_elevation_deg) now ((hours : ℚ) * 3600)).sum /
          ((gapsOf (cityWindows satellites propEl now hours step_seconds
            min_elevation_deg) now ((hours : ℚ) * 3600)).length : ℚ) / 60) := rfl

theorem cityReport_max_gap (satellites : List Satellite)
    (propEl : Satellite → ℕ → Option ℚ) (now : ℚ) (city_name : String)
    (city_lat city_lon : ℚ) (hours step_seconds : ℤ) (min_elevation_deg : ℚ) :
    (cityReport satellites propEl now city_name city_lat city_lon hours
      step_seconds min_elevation_deg).max_gap_minutes =
      roundTo 1
        (if (gapsOf (cityWindows satellites propEl now hours step_seconds
            min_elevation_deg) now ((hours : ℚ) * 3600)).isEmpty then
          ((hours : ℚ) * 3600) / 60
         else listMax (gapsOf (cityWindows satellites propEl now hours
            step_seconds min_elevation_deg) now ((hours : ℚ) * 3600)) / 60) := rfl

/-! ## Concrete demonstration data

A small synthetic satellite set with hand-written propagation traces (the
trailing `none`s model the propagator failing after the interesting prefix,
which by C4's no-op property does not affect the scans). -/

def demoSat : Satellite := ⟨"SAT-A", 25544⟩

def demoSatB : Satellite := ⟨"SAT-B", 20580⟩

/-- Elevation trace 5°, 15°, 5°, −1°: above the horizon from the first step
but above a 10° threshold only at the second. -/
def demoTrace : ℕ → Option ℚ :=
  fun i => [some 5, some 15, some 5, some (-1)].getD i none

/-- Elevation trace 10.04°, −1°: peak exactly at a non-multiple-of-0.1
threshold. -/
def demoTraceLow : ℕ → Option ℚ :=
  fun i => [some (251/25), some (-1)].getD i none

/-- City trace 10°, 10°, 0°: one window closing at the third step. -/
def demoCityTrace : Satellite → ℕ → Option ℚ :=
  fun _ i => [some 10, some 10, some 0].getD i none

theorem demoTrace_none : ∀ i, 4 ≤ i → demoTrace i = none := by
  intro i hi
  simp only [demoTrace]
  rw [List.getD_eq_default]
  simpa using hi

theorem demoTraceLow_none : ∀ i, 2 ≤ i → demoTraceLow i = none := by
  intro i hi
  simp only [demoTraceLow]
  rw [List.getD_eq_default]
  simpa using hi

theorem demoCityTrace_none : ∀ sat i, 3 ≤ i → demoCityTrace sat i = none := by
  intro sat i hi
  simp only [demoCityTrace]
  rw [List.getD_eq_default]
  simpa using hi

theorem eval_predict_demo : predict_passes demoSat demoTrace 0 1 10 =
    [⟨"SAT-A", 25544, 0, 90, 30, 15, 90⟩] := by
  unfold predict_passes
  have htr := foldl_none_tail (passStep demoSat 10) (fun st t => rfl) 0 30 demoTrace
    4 ((120 * (1 : ℤ)).toNat) (by norm_num) demoTrace_none
    ({ phase := .below, passes := [] } : PassState)
  rw [htr]
  norm_num [samples, List.range_succ, passStep, demoTrace, demoSat, roundTo, pyRound]

theorem eval_predict_low : predict_passes demoSat demoTraceLow 0 1 (251/25) =
    [⟨"SAT-A", 25544, 0, 30, 0, 10, 30⟩] := by
  unfold predict_passes
  have htr := foldl_none_tail (passStep demoSat (251/25)) (fun st t => rfl) 0 30
    demoTraceLow 2 ((120 * (1 : ℤ)).toNat) (by norm_num) demoTraceLow_none
    ({ phase := .below, passes := [] } : PassState)
  rw [htr]
  norm_num [samples, List.range_succ, passStep, demoTraceLow, demoSat, roundTo,
    pyRound]

theorem eval_cov_demo : covScanSat demoSat demoTrace 0 30 120 10 =
    [⟨"SAT-A", 25544, 30, 60, 15, 30⟩] := by
  unfold covScanSat
  have htr := foldl_none_tail (covStep demoSat 10) (fun st t => rfl) 0 30 demoTrace
    4 120 (by norm_num) demoTrace_none ({ phase := .out, windows := [] } : CovState)
  rw [htr]
  norm_num [samples, List.range_succ, covStep, demoTrace, demoSat, roundTo, pyRound]

theorem eval_cityNumSteps_900 : cityNumSteps 1 900 = 4 := by
  norm_num [cityNumSteps, ratTrunc]
  rfl

theorem eval_cityNumSteps_1200 : cityNumSteps 1 1200 = 3 := by
  norm_num [cityNumSteps, ratTrunc]
  rfl

theorem eval_cityNumSteps_30 : cityNumSteps 1 30 = 120 := by
  norm_num [cityNumSteps, ratTrunc]
  rfl

theorem eval_covScan_900 : covScanSat demoSat (demoCityTrace demoSat) 0 900 4 10 =
    [⟨"SAT-A", 25544, 0, 1800, 10, 1800⟩] := by
  unfold covScanSat
  have htr := foldl_none_tail (covStep demoSat 10) (fun st t => rfl) 0 900
    (demoCityTrace demoSat) 3 4 (by norm_num) (demoCityTrace_none demoSat)
    ({ phase := .out, windows := [] } : CovState)
  rw [htr]
  norm_num [samples, List.range_succ, covStep, demoCityTrace, demoSat, roundTo,
    pyRound]

theorem eval_cityWindows_demo : cityWindows [demoSat] demoCityTrace 0 1 900 10 =
    [⟨"SAT-A", 25544, 0, 1800, 10, 1800⟩] := by
  unfold cityWindows
  rw [eval_cityNumSteps_900]
  rw [show ([demoSat].flatMap (fun sat => covScanSat sat (demoCityTrace sat) 0
      ((900 : ℤ) : ℚ) 4 10)) = covScanSat demoSat (demoCityTrace demoSat) 0
      ((900 : ℤ) : ℚ) 4 10 by simp]
  rw [show ((900 : ℤ) : ℚ) = (900 : ℚ) by norm_num]
  rw [eval_covScan_900]
  rfl

theorem eval_covScan_1200 (sat : Satellite) :
    covScanSat sat (demoCityTrace sat) 0 1200 3 10 =
      [⟨sat.name, sat.norad_id, 0, 2400, 10, 2400⟩] := by
  unfold covScanSat
  norm_num [samples, List.range_succ, covStep, demoCityTrace, roundTo, pyRound]

theorem eval_cityWindows_two :
    cityWindows [demoSat, demoSatB] demoCityTrace 0 1 1200 10 =
      [⟨"SAT-A", 25544, 0, 2400, 10, 2400⟩,
       ⟨"SAT-B", 20580, 0, 2400, 10, 2400⟩] := by
  unfold cityWindows
  rw [eval_cityNumSteps_1200]
  rw [show ([demoSat, demoSatB].flatMap (fun sat => covScanSat sat
      (demoCityTrace sat) 0 ((1200 : ℤ) : ℚ) 3 10)) =
    covScanSat demoSat (demoCityTrace demoSat) 0 ((1200 : ℤ) : ℚ) 3 10 ++
      covScanSat demoSatB (demoCityTrace demoSatB) 0 ((1200 : ℤ) : ℚ) 3 10
    by simp]
  rw [show ((1200 : ℤ) : ℚ) = (1200 : ℚ) by norm_num]
  rw [eval_covScan_1200 demoSat, eval_covScan_1200 demoSatB]
  norm_num [List.insertionSort, List.orderedInsert, startLE, demoSat, demoSatB]

theorem eval_cityWindows_c1 :
    cityWindows [demoSat] (fun _ => demoTrace) 0 1 30 10 =
      [⟨"SAT-A", 25544, 30, 60, 15, 30⟩] := by
  unfold cityWindows
  rw [eval_cityNumSteps_30]
  rw [show ([demoSat].flatMap (fun sat => covScanSat sat demoTrace 0
      ((30 : ℤ) : ℚ) 120 10)) = covScanSat demoSat demoTrace 0
      ((30 : ℤ) : ℚ) 120 10 by simp]
  rw [show ((30 : ℤ) : ℚ) = (30 : ℚ) by norm_num]
  rw [eval_cov_demo]
  rfl

/-- The single pass the demo trace produces. -/
def demoPass : PassPrediction := ⟨"SAT-A", 25544, 0, 90, 30, 15, 90⟩

theorem flatMap_const_nil {α β : Type} (l : List α) :
    l.flatMap (fun _ => ([] : List β)) = [] := by
  induction l with
  | nil => rfl
  | cons a as ih => simp [ih]

/-- C1 counterexample: for the same satellite, observer trace, 30 s step and
10° threshold, `compute_city_coverage` detects the window `[now+30, now+60]`
while `predict_passes` detects `[now, now+90]` — the two state machines do
not produce the same boundary times. -/
theorem C1_counterexample :
    (compute_city_coverage [demoSat] (fun _ => demoTrace) 0 "c" 0 0 1 30
        10).toOption.map
      (fun r => r.windows.map (fun w => (w.start_time, w.end_time))) =
      some [((30 : ℚ), (60 : ℚ))] ∧
    (predict_passes demoSat demoTrace 0 1 10).map
      (fun p => (p.rise_time, p.set_time)) = [((0 : ℚ), (90 : ℚ))] ∧
    ¬ (some [((30 : ℚ), (60 : ℚ))] = some [((0 : ℚ), (90 : ℚ))]) := by
  refine ⟨?_, ?_, by norm_num⟩
  · rw [compute_city_coverage_ok _ _ _ _ _ _ _ _ _ (by norm_num) (by norm_num)]
    show some ((cityReport [demoSat] (fun _ => demoTrace) 0 "c" 0 0 1 30
      10).windows.map (fun w => (w.start_time, w.end_time))) = _
    rw [cityReport_windows, eval_cityWindows_c1]
    rfl
  · rw [eval_predict_demo]
    rfl

/-- C1 (amended): `predict_passes` implements exactly the §4.4 machine
(enter at `e > 0`, running maximum with first-occurrence tie-break, close at
`e ≤ 0`, emit iff the peak reached `min_elevation_deg`), while
`compute_city_coverage` runs per satellite a machine of the same shape but
with different guards — enter at `e ≥ min_elevation_deg`, close at
`e < min_elevation_deg`, emit every closed window unconditionally — and
collects the per-satellite windows independently (no cross-satellite
interaction), sorting the combined list by start time.  Boundary times of the
two machines therefore differ in general (see the counterexample). -/
theorem C1_state_machines :
    (∀ (sat : Satellite) (propEl : ℕ → Option ℚ) (now : ℚ) (hours : ℤ)
      (min_el : ℚ), predict_passes sat propEl now hours min_el =
        (spec44Run min_el .belowHorizon
          (samples now 30 (120 * hours).toNat propEl)).map
          (toPassPrediction sat)) ∧
    (∀ (sat : Satellite) (propEl : ℕ → Option ℚ) (now step : ℚ) (steps : ℕ)
      (min_el : ℚ), covScanSat sat propEl now step steps min_el =
        (thresholdRun min_el .outside (samples now step steps propEl)).map
          (toCoverageWindow sat)) ∧
    (∀ (satellites : List Satellite) (propEl : Satellite → ℕ → Option ℚ)
      (now : ℚ) (city_name : String) (city_lat city_lon : ℚ)
      (hours step_seconds : ℤ) (min_el : ℚ), step_seconds ≠ 0 → hours ≠ 0 →
      ∃ r, compute_city_coverage satellites propEl now city_name city_lat
          city_lon hours step_seconds min_el = .ok r ∧
        r.windows = List.insertionSort startLE (satellites.flatMap
          (fun sat => covScanSat sat (propEl sat) now (step_seconds : ℚ)
            (cityNumSteps hours step_seconds) min_el))) := by
  refine ⟨predict_passes_eq_spec44, covScanSat_eq_threshold, ?_⟩
  intro satellites propEl now city_name city_lat city_lon hours step_seconds
    min_el hs hh
  exact ⟨cityReport satellites propEl now city_name city_lat city_lon hours
      step_seconds min_el,
    compute_city_coverage_ok satellites propEl now city_name city_lat city_lon
      hours step_seconds min_el hs hh, rfl⟩

/-- C1 witness: the coverage-report decomposition at a concrete call. -/
theorem C1_witness :
    ∃ r, compute_city_coverage [demoSat] demoCityTrace 0 "c" 0 0 1 900 10 =
        .ok r ∧
      r.windows = List.insertionSort startLE ([demoSat].flatMap
        (fun sat => covScanSat sat (demoCityTrace sat) 0 ((900 : ℤ) : ℚ)
          (cityNumSteps 1 900) 10)) :=
  C1_state_machines.2.2 [demoSat] demoCityTrace 0 "c" 0 0 1 900 10
    (by norm_num) (by norm_num)

/-- C2 counterexample: with `min_elevation_deg = 10.04` and a pass peaking at
exactly 10.04°, the pass is emitted but its recorded `max_elevation_deg`
(rounded to one decimal) is 10.0, strictly below the threshold. -/
theorem C2_counterexample :
    (predict_passes demoSat demoTraceLow 0 1 (251/25)).map
      (fun p => p.max_elevation_deg) = [(10 : ℚ)] ∧ (10 : ℚ) < 251 / 25 := by
  constructor
  · rw [eval_predict_low]
    rfl
  · norm_num

/-- C2 (amended): every emitted `PassPrediction` satisfies
`rise_time ≤ max_elevation_time < set_time` and
`duration_seconds = set_time − rise_time`; the unrounded peak is
`≥ min_elevation_deg`, so the recorded (rounded-to-one-decimal)
`max_elevation_deg` is `≥ min_elevation_deg − 0.05`, and is
`≥ min_elevation_deg` itself whenever the threshold is a multiple of 0.1 (as
the default 10.0 is); a later scan step whose elevation merely equals the
running maximum causes no state change, so the peak time keeps its first
occurrence. -/
theorem C2_pass_prediction_invariants :
    (∀ (sat : Satellite) (propEl : ℕ → Option ℚ) (now : ℚ) (hours : ℤ)
      (min_el : ℚ), ∀ p ∈ predict_passes sat propEl now hours min_el,
        p.rise_time ≤ p.max_elevation_time ∧
        p.max_elevation_time < p.set_time ∧
        p.duration_seconds = p.set_time - p.rise_time ∧
        min_el - 1/20 ≤ p.max_elevation_deg ∧
        (∀ k : ℤ, min_el = (k : ℚ) / 10 → min_el ≤ p.max_elevation_deg)) ∧
    (∀ (sat : Satellite) (min_el r m mt t : ℚ) (ps : List PassPrediction),
      0 < m → passStep sat min_el ⟨.inPass r m mt, ps⟩ (t, some m) =
        ⟨.inPass r m mt, ps⟩) := by
  constructor
  · intro sat propEl now hours min_el p hp
    rw [predict_passes_eq_spec44] at hp
    obtain ⟨w, hw, rfl⟩ := List.mem_map.mp hp
    obtain ⟨h1, h2, h3, _⟩ := spec44Run_mem min_el _
      (samples_pairwise now 30 (by norm_num) (120 * hours).toNat propEl)
      .belowHorizon (by rintro r m mt ⟨⟩) w hw
    refine ⟨h1, h2, rfl, ?_, ?_⟩
    · have hb := sub_le_roundTo 1 w.maxEl
      have h20 : (1 : ℚ) / (2 * 10 ^ (1 : ℕ)) = 1/20 := by norm_num
      rw [h20] at hb
      show min_el - 1/20 ≤ roundTo 1 w.maxEl
      linarith
    · intro k hk
      have hki : (k : ℚ) / 10 ^ (1 : ℕ) ≤ w.maxEl := by
        rw [pow_one, ← hk]
        exact h3
      have := roundTo_ge_of_int_div 1 k w.maxEl hki
      rw [pow_one] at this
      show min_el ≤ roundTo 1 w.maxEl
      rw [hk]
      exact this
  · intro sat min_el r m mt t ps hm
    simp only [passStep]
    rw [if_neg (lt_irrefl m), if_neg (not_le.mpr hm)]

/-- C2 witness: the invariants at the concrete demo pass, the
multiple-of-0.1 threshold 10.0 preserved through rounding, and the equal-peak
no-move rule at a concrete in-pass state. -/
theorem C2_witness :
    demoPass.rise_time ≤ demoPass.max_elevation_time ∧
    demoPass.max_elevation_time < demoPass.set_time ∧
    demoPass.duration_seconds = demoPass.set_time - demoPass.rise_time ∧
    (10 : ℚ) - 1/20 ≤ demoPass.max_elevation_deg ∧
    (10 : ℚ) ≤ demoPass.max_elevation_deg ∧
    passStep demoSat 10 ⟨.inPass 0 5 0, []⟩ (30, some 5) =
      ⟨.inPass 0 5 0, []⟩ := by
  have hmem : demoPass ∈ predict_passes demoSat demoTrace 0 1 10 := by
    rw [eval_predict_demo]
    exact List.mem_singleton.mpr rfl
  obtain ⟨h1, h2, h3, h4, h5⟩ :=
    C2_pass_prediction_invariants.1 demoSat demoTrace 0 1 10 demoPass hmem
  exact ⟨h1, h2, h3, h4, h5 100 (by norm_num),
    C2_pass_prediction_invariants.2 demoSat 10 0 5 0 30 [] (by norm_num)⟩

/-- C3 witness: the demo pass closes at scan step 3 (elevation −1 ≤ 0), and
the demo coverage window closes at step 2 (elevation 0 < 10). -/
theorem C3_witness :
    (∃ j, j < (120 * (1 : ℤ)).toNat ∧ ∃ e, demoTrace j = some e ∧ e ≤ 0 ∧
      demoPass.set_time = 0 + 30 * (j : ℚ)) ∧
    (∃ sat ∈ [demoSat],
      (⟨"SAT-A", 25544, 0, 1800, 10, 1800⟩ : CoverageWindow).satellite_name =
        sat.name ∧
      ∃ j, j < cityNumSteps 1 900 ∧ ∃ e, demoCityTrace sat j = some e ∧
        e < 10 ∧
        (⟨"SAT-A", 25544, 0, 1800, 10, 1800⟩ : CoverageWindow).end_time =
          0 + ((900 : ℤ) : ℚ) * (j : ℚ)) := by
  constructor
  · exact C3_open_windows_dropped.1 demoSat demoTrace 0 1 10 demoPass
      (by rw [eval_predict_demo]; exact List.mem_singleton.mpr rfl)
  · refine C3_open_windows_dropped.2 [demoSat] demoCityTrace 0 "c" 0 0 1 900 10
      (cityReport [demoSat] demoCityTrace 0 "c" 0 0 1 900 10)
      (compute_city_coverage_ok _ _ _ _ _ _ _ _ _ (by norm_num) (by norm_num))
      _ ?_
    rw [cityReport_windows, eval_cityWindows_demo]
    exact List.mem_singleton.mpr rfl

/-- C5: with a positive horizon and step, the gap list of
`compute_city_coverage` is exactly the claim's filtered candidate list
(start→first window, consecutive window-to-window, last window→horizon end,
positive entries only; the single full-horizon entry when no windows); it is
never empty, and `avg_gap_minutes` / `max_gap_minutes` are the mean and the
(genuine) maximum of that list in minutes, rounded to one decimal as §4.5
documents. -/
theorem C5_gap_statistics (satellites : List Satellite)
    (propEl : Satellite → ℕ → Option ℚ) (now : ℚ) (city_name : String)
    (city_lat city_lon : ℚ) (hours step_seconds : ℤ) (min_elevation_deg : ℚ)
    (hh : 0 < hours) (hs : 0 < step_seconds) :
    ∃ r, compute_city_coverage satellites propEl now city_name city_lat
        city_lon hours step_seconds min_elevation_deg = .ok r ∧
      gapsOf r.windows now ((hours : ℚ) * 3600) =
        specGapList r.windows now ((hours : ℚ) * 3600) ∧
      gapsOf r.windows now ((hours : ℚ) * 3600) ≠ [] ∧
      (r.windows = [] →
        gapsOf r.windows now ((hours : ℚ) * 3600) = [(hours : ℚ) * 3600]) ∧
      r.avg_gap_minutes = roundTo 1
        ((gapsOf r.windows now ((hours : ℚ) * 3600)).sum /
          ((gapsOf r.windows now ((hours : ℚ) * 3600)).length : ℚ) / 60) ∧
      r.max_gap_minutes = roundTo 1
        (listMax (gapsOf r.windows now ((hours : ℚ) * 3600)) / 60) ∧
      listMax (gapsOf r.windows now ((hours : ℚ) * 3600)) ∈
        gapsOf r.windows now ((hours : ℚ) * 3600) ∧
      ∀ x ∈ gapsOf r.windows now ((hours : ℚ) * 3600),
        x ≤ listMax (gapsOf r.windows now ((hours : ℚ) * 3600)) := by
  refine ⟨cityReport satellites propEl now city_name city_lat city_lon hours
      step_seconds min_elevation_deg,
    compute_city_coverage_ok satellites propEl now city_name city_lat city_lon
      hours step_seconds min_elevation_deg (ne_of_gt hs) (ne_of_gt hh), ?_⟩
  rw [cityReport_windows]
  have hne := gapsOf_cityWindows_ne_nil satellites propEl now hours step_seconds
    min_elevation_deg hh hs
  obtain ⟨hmem, hmax⟩ := listMax_spec _ hne
  refine ⟨gapsOf_eq_specGapList _ _ _, hne, ?_, ?_, ?_, hmem, hmax⟩
  · intro h
    rw [h]
    rfl
  · rw [cityReport_avg_gap]
    congr 1
    rw [if_neg (by simpa using hne)]
  · rw [cityReport_max_gap]
    congr 1
    rw [if_neg (by simpa using hne)]

/-- C5 witness: the gap statistics at a concrete one-satellite run. -/
theorem C5_witness :
    ∃ r, compute_city_coverage [demoSat] demoCityTrace 0 "c" 0 0 1 900 10 =
        .ok r ∧
      gapsOf r.windows 0 ((1 : ℚ) * 3600) ≠ [] ∧
      r.avg_gap_minutes = roundTo 1
        ((gapsOf r.windows 0 ((1 : ℚ) * 3600)).sum /
          ((gapsOf r.windows 0 ((1 : ℚ) * 3600)).length : ℚ) / 60) := by
  obtain ⟨r, h1, _, h3, _, h5, _⟩ :=
    C5_gap_statistics [demoSat] demoCityTrace 0 "c" 0 0 1 900 10
      (by norm_num) (by norm_num)
  have hcast : (((1 : ℤ) : ℚ)) = (1 : ℚ) := by norm_num
  rw [hcast] at h3 h5
  exact ⟨r, h1, h3, h5⟩

/-- C6: `coverage_percentage` is the unclamped ratio
(sum of all window durations) / (horizon seconds) × 100, rounded to two
decimals as §4.5 documents; it is 0 when no windows are detected, and can
exceed 100 when two satellites' windows overlap (shown at a concrete
two-satellite run whose percentage is 133.33). -/
theorem C6_coverage_percentage (satellites : List Satellite)
    (propEl : Satellite → ℕ → Option ℚ) (now : ℚ) (city_name : String)
    (city_lat city_lon : ℚ) (hours step_seconds : ℤ) (min_elevation_deg : ℚ)
    (hh : hours ≠ 0) (hs : step_seconds ≠ 0) :
    (∃ r, compute_city_coverage satellites propEl now city_name city_lat
        city_lon hours step_seconds min_elevation_deg = .ok r ∧
      r.coverage_percentage = roundTo 2 ((r.windows.map
        (fun w => w.duration_seconds)).sum / ((hours : ℚ) * 3600) * 100) ∧
      r.total_coverage_seconds =
        (r.windows.map (fun w => w.duration_seconds)).sum ∧
      (r.windows = [] → r.coverage_percentage = 0)) ∧
    (∃ r2, compute_city_coverage [demoSat, demoSatB] demoCityTrace 0 "overlap"
        0 0 1 1200 10 = .ok r2 ∧
      r2.coverage_percentage = 13333 / 100 ∧ 100 < r2.coverage_percentage) := by
  constructor
  · refine ⟨cityReport satellites propEl now city_name city_lat city_lon hours
        step_seconds min_elevation_deg,
      compute_city_coverage_ok satellites propEl now city_name city_lat
        city_lon hours step_seconds min_elevation_deg hs hh, ?_, rfl, ?_⟩
    · rw [cityReport_pct, cityReport_windows]
    · intro h
      rw [cityReport_windows] at h
      rw [cityReport_pct, h]
      simp [roundTo_zero]
  · have hpct : (cityReport [demoSat, demoSatB] demoCityTrace 0 "overlap" 0 0 1
        1200 10).coverage_percentage = 13333 / 100 := by
      rw [cityReport_pct, eval_cityWindows_two]
      norm_num [roundTo, pyRound]
    exact ⟨cityReport [demoSat, demoSatB] demoCityTrace 0 "overlap" 0 0 1 1200
        10,
      compute_city_coverage_ok _ _ _ _ _ _ _ _ _ (by norm_num) (by norm_num),
      hpct, by rw [hpct]; norm_num⟩

/-- C6 witness: the percentage formula at a concrete one-satellite run. -/
theorem C6_witness :
    ∃ r, compute_city_coverage [demoSat] demoCityTrace 0 "c" 0 0 1 900 10 =
        .ok r ∧
      r.coverage_percentage = roundTo 2 ((r.windows.map
        (fun w => w.duration_seconds)).sum / (((1 : ℤ) : ℚ) * 3600) * 100) := by
  obtain ⟨⟨r, h1, h2, _, _⟩, _⟩ :=
    C6_coverage_percentage [demoSat] demoCityTrace 0 "c" 0 0 1 900 10
      (by norm_num) (by norm_num)
  exact ⟨r, h1, h2⟩

/-- C9 counterexample: a negative step size is not reported as a failure —
the call returns a normal (`ok`) report. -/
theorem C9_counterexample :
    (compute_city_coverage [demoSat] demoCityTrace 0 "c" 0 0 24 (-30)
      10).toOption.isSome = true := by
  rw [compute_city_coverage_ok [demoSat] demoCityTrace 0 "c" 0 0 24 (-30) 10
    (by norm_num) (by norm_num)]
  rfl

/-- C9 (amended): the source performs no input validation.  A zero step size
raises `ZeroDivisionError` at the `num_steps` computation (before scanning) in
both `compute_city_coverage` and `compute_ground_tracks`; a zero horizon with
a nonzero step raises `ZeroDivisionError` only after the (empty) scan when the
coverage percentage is computed, while `compute_ground_tracks` silently
returns empty tracks; a negative step size silently yields an empty scan and a
normal report in both operations. -/
theorem C9_no_input_validation :
    (∀ (satellites : List Satellite) (propEl : Satellite → ℕ → Option ℚ)
      (now : ℚ) (city_name : String) (city_lat city_lon : ℚ) (hours : ℤ)
      (min_el : ℚ), compute_city_coverage satellites propEl now city_name
        city_lat city_lon hours 0 min_el =
        .error "ZeroDivisionError: num_steps") ∧
    (∀ (satellites : List Satellite) (propEl : Satellite → ℕ → Option ℚ)
      (now : ℚ) (city_name : String) (city_lat city_lon : ℚ)
      (step_seconds : ℤ) (min_el : ℚ), step_seconds ≠ 0 →
      compute_city_coverage satellites propEl now city_name city_lat city_lon
        0 step_seconds min_el = .error "ZeroDivisionError: coverage_pct") ∧
    (∀ (satellites : List Satellite) (propEl : Satellite → ℕ → Option ℚ)
      (now : ℚ) (city_name : String) (city_lat city_lon : ℚ)
      (hours step_seconds : ℤ) (min_el : ℚ), 0 < hours → step_seconds < 0 →
      ∃ r, compute_city_coverage satellites propEl now city_name city_lat
          city_lon hours step_seconds min_el = .ok r ∧
        r.windows = [] ∧ r.num_passes = 0) ∧
    (∀ (satellites : List Satellite)
      (propGeo : Satellite → ℕ → Option (ℚ × ℚ × ℚ)) (now : ℚ) (hours : ℤ),
      compute_ground_tracks satellites propGeo now hours 0 =
        .error "ZeroDivisionError: num_steps") ∧
    (∀ (satellites : List Satellite)
      (propGeo : Satellite → ℕ → Option (ℚ × ℚ × ℚ)) (now : ℚ)
      (hours step_seconds : ℤ), 0 < hours → step_seconds < 0 →
      compute_ground_tracks satellites propGeo now hours step_seconds =
        .ok (satellites.map (fun s => (s.name, [])))) ∧
    (∀ (satellites : List Satellite)
      (propGeo : Satellite → ℕ → Option (ℚ × ℚ × ℚ)) (now : ℚ)
      (step_seconds : ℤ), step_seconds ≠ 0 →
      compute_ground_tracks satellites propGeo now 0 step_seconds =
        .ok (satellites.map (fun s => (s.name, [])))) := by
  refine ⟨?_, ?_, ?_, ?_, ?_, ?_⟩
  · intro satellites propEl now city_name city_lat city_lon hours min_el
    unfold compute_city_coverage
    rw [if_pos rfl]
  · intro satellites propEl now city_name city_lat city_lon step_seconds
      min_el hs
    unfold compute_city_coverage
    rw [if_neg hs, if_pos (by norm_num)]
  · intro satellites propEl now city_name city_lat city_lon hours step_seconds
      min_el hh hsn
    refine ⟨cityReport satellites propEl now city_name city_lat city_lon hours
        step_seconds min_el,
      compute_city_coverage_ok satellites propEl now city_name city_lat
        city_lon hours step_seconds min_el (ne_of_lt hsn) (ne_of_gt hh), ?_, ?_⟩
    · rw [cityReport_windows]
      unfold cityWindows
      rw [cityNumSteps_zero_of_neg hours step_seconds hh hsn]
      rw [show (satellites.flatMap (fun sat => covScanSat sat (propEl sat) now
          (step_seconds : ℚ) 0 min_el)) =
        satellites.flatMap (fun _ => ([] : List CoverageWindow)) from rfl]
      rw [flatMap_const_nil]
      rfl
    · rw [cityReport_num_passes]
      unfold cityWindows
      rw [cityNumSteps_zero_of_neg hours step_seconds hh hsn]
      rw [show (satellites.flatMap (fun sat => covScanSat sat (propEl sat) now
          (step_seconds : ℚ) 0 min_el)) =
        satellites.flatMap (fun _ => ([] : List CoverageWindow)) from rfl]
      rw [flatMap_const_nil]
      rfl
  · intro satellites propGeo now hours
    unfold compute_ground_tracks
    rw [if_pos rfl]
  · intro satellites propGeo now hours step_seconds hh hsn
    unfold compute_ground_tracks
    rw [if_neg (ne_of_lt hsn), cityNumSteps_zero_of_neg hours step_seconds hh hsn]
    rfl
  · intro satellites propGeo now step_seconds hs
    unfold compute_ground_tracks
    rw [if_neg hs, cityNumSteps_zero_of_hours_zero step_seconds]
    rfl

/-- C9 witness: the three concrete misuse behaviours — negative step giving a
normal empty report, negative step giving empty ground tracks, and zero
horizon raising the division error. -/
theorem C9_witness :
    (∃ r, compute_city_coverage [demoSat] demoCityTrace 0 "c" 0 0 24 (-30) 10 =
        .ok r ∧ r.windows = [] ∧ r.num_passes = 0) ∧
    compute_ground_tracks [demoSat] (fun _ _ => none) 0 24 (-60) =
      .ok ([demoSat].map (fun s => (s.name, []))) ∧
    compute_city_coverage [demoSat] demoCityTrace 0 "c" 0 0 0 30 10 =
      .error "ZeroDivisionError: coverage_pct" :=
  ⟨C9_no_input_validation.2.2.1 [demoSat] demoCityTrace 0 "c" 0 0 24 (-30) 10
      (by norm_num) (by norm_num),
   C9_no_input_validation.2.2.2.2.1 [demoSat] (fun _ _ => none) 0 24 (-60)
      (by norm_num) (by norm_num),
   C9_no_input_validation.2.1 [demoSat] demoCityTrace 0 "c" 0 0 30 10
      (by norm_num)⟩

end SatTrack
